import Mathlib

set_option maxHeartbeats 1000000

/-! Shallow embedding of the Daisy Seed reverse-delay program
(src/ReverseDelay.cpp).  The machine float values are modelled as exact
rationals; size_t values are modelled as Nat with explicit wrapping where
the program wraps.  The per-sample body of AudioCallback is translated
into a step function on an explicit engine state; the control-flow part
of the state (segments, cursors, flags, counters) is split into a
structure Ctl so that scheduler facts can be decided by evaluation. -/

/-- constexpr float kSampleRate = 48000.0f -/
def kSampleRateQ : ℚ := 48000

/-- constexpr size_t kBufferSize = (size_t)(2.0f * kSampleRate), the 2 second ring. -/
def kBufferSize : ℕ := 96000

/-- constexpr size_t kFadeTime = 4800*2, the crossfade window in samples. -/
def kFadeTime : ℕ := 9600

/-- constexpr float kFadeStep = 1.0f / float(kFadeTime) -/
def kFadeStep : ℚ := 1 / (kFadeTime : ℚ)

/-- constexpr size_t kMinDelaySamps = kFadeTime + 480 -/
def kMinDelaySamps : ℕ := kFadeTime + 480

/-- constexpr size_t kMaxDelaySamps = kBufferSize - 480 -/
def kMaxDelaySamps : ℕ := kBufferSize - 480

/-- constexpr float kMinDelaySec = float(kMinDelaySamps) / kSampleRate -/
def kMinDelaySec : ℚ := (kMinDelaySamps : ℚ) / kSampleRateQ

/-- constexpr float kMaxDelaySec = float(kMaxDelaySamps) / kSampleRate -/
def kMaxDelaySec : ℚ := (kMaxDelaySamps : ℚ) / kSampleRateQ

/-- inline size_t wrapDec(size_t x): backward step with wraparound at 0. -/
def wrapDec (x : ℕ) : ℕ := if x = 0 then kBufferSize - 1 else x - 1

/-- inline size_t wrapAdd(size_t a, size_t b) -/
def wrapAdd (a b : ℕ) : ℕ := (a + b) % kBufferSize

/-- inline size_t clampSize(size_t v, size_t lo, size_t hi) -/
def clampSize (v lo hi : ℕ) : ℕ := if v < lo then lo else if hi < v then hi else v

/-- struct Segment (the static member aLag is kept in Ctl below). -/
structure Seg where
  head : ℕ
  start : ℕ
  len : ℕ
  played : ℕ
  active : Bool
  deriving DecidableEq, Repr

/-- void StartSegment(Segment&, size_t currentWrite, size_t len): overwrites
every field of the segment and toggles the shared lead/lag flag once. -/
def StartSegment (s : Seg) (currentWrite len : ℕ) (aLag : Bool) : Seg × Bool :=
  (⟨currentWrite, currentWrite, len, 0, true⟩, !aLag)

/-- void DeactivateSegment(Segment&): every field reset, active = false. -/
def deactivatedSeg : Seg := ⟨0, 0, 0, 0, false⟩

/-- Control part of StepSegment: the read head walks backward with
wraparound and played increments (the sample value itself is handled in
engineStep). -/
def stepSeg (s : Seg) : Seg := { s with head := wrapDec s.head, played := s.played + 1 }

/-- The control-flow state of the callback: write cursor, the two
segments, the lead/lag flag, the crossfade counters and flags, and the
one-shot startup flag. -/
structure Ctl where
  writePos : ℕ
  segA : Seg
  segB : Seg
  aLag : Bool
  fadeCount : ℕ
  fading : Bool
  fadeSwap : Bool
  startup : Bool
  deriving DecidableEq, Repr

/-- Lines 106-112: one-time startup, both segments force-deactivated and
segment A started at the current write cursor. -/
def ctlStartupPhase (L : ℕ) (c : Ctl) : Ctl :=
  if c.startup then
    let p := StartSegment deactivatedSeg c.writePos L c.aLag
    { c with segA := p.1, segB := deactivatedSeg, aLag := p.2, startup := false }
  else c

/-- Lines 117-136: the four mutually exclusive read branches step every
currently active segment exactly once. -/
def ctlSegsPhase (c : Ctl) : Ctl :=
  { c with segA := if c.segA.active then stepSeg c.segA else c.segA,
           segB := if c.segB.active then stepSeg c.segB else c.segB }

/-- Lines 140-158, control part of the fade block: while fading, the
counter advances up to kFadeTime; at kFadeTime the fade ends, the counter
resets and the ramp direction flips. -/
def ctlFadePhase (c : Ctl) : Ctl :=
  if c.fading then
    if c.fadeCount < kFadeTime then { c with fadeCount := c.fadeCount + 1 }
    else { c with fading := false, fadeCount := 0, fadeSwap := !c.fadeSwap }
  else c

/-- Lines 166-183: the handoff trigger.  When aLag is set, segment B is
inspected and segment A restarted; otherwise segment A is inspected and
segment B restarted. -/
def ctlTrigPhase (L : ℕ) (c : Ctl) : Ctl :=
  if c.aLag then
    if c.fading = false ∧ c.segB.len ≤ c.segB.played + kFadeTime then
      let p := StartSegment c.segA c.writePos L c.aLag
      { c with fading := true, segA := p.1, aLag := p.2 }
    else c
  else
    if c.fading = false ∧ c.segA.len ≤ c.segA.played + kFadeTime then
      let p := StartSegment c.segB c.writePos L c.aLag
      { c with fading := true, segB := p.1, aLag := p.2 }
    else c

/-- Lines 185-192: unconditional retire of any segment whose play count
reached its length. -/
def ctlRetirePhase (c : Ctl) : Ctl :=
  let c1 := if c.segA.len ≤ c.segA.played then { c with segA := deactivatedSeg } else c
  if c1.segB.len ≤ c1.segB.played then { c1 with segB := deactivatedSeg } else c1

/-- Line 194: the write cursor advances modulo capacity. -/
def ctlAdvancePhase (c : Ctl) : Ctl := { c with writePos := (c.writePos + 1) % kBufferSize }

/-- One sample of the callback, control part, with the delay length L
that every StartSegment call of that sample receives. -/
def ctlStep (L : ℕ) (c : Ctl) : Ctl :=
  ctlAdvancePhase (ctlRetirePhase (ctlTrigPhase L (ctlFadePhase (ctlSegsPhase (ctlStartupPhase L c)))))

/-- The program start state of the control variables. -/
def ctlInit : Ctl := ⟨0, deactivatedSeg, deactivatedSeg, true, 0, false, false, true⟩

/-- n callback samples from the start state. -/
def ctlIter (L : ℕ) : ℕ → Ctl
  | 0 => ctlInit
  | n + 1 => ctlStep L (ctlIter L n)

/-- The guard of the handoff trigger (lines 166-183), evaluated on the
state the trigger block actually sees. -/
def trigCond (c : Ctl) : Prop :=
  c.fading = false ∧
    ((c.aLag = true ∧ c.segB.len ≤ c.segB.played + kFadeTime) ∨
     (c.aLag = false ∧ c.segA.len ≤ c.segA.played + kFadeTime))

instance : DecidablePred trigCond := fun c => by
  unfold trigCond; exact inferInstance

/-- Number of StartSegment calls performed during one callback sample:
one for the one-time startup block, one when the handoff trigger fires on
the state it observes. -/
def startCount (L : ℕ) (c : Ctl) : ℕ :=
  (if c.startup then 1 else 0) +
    (if trigCond (ctlFadePhase (ctlSegsPhase (ctlStartupPhase L c))) then 1 else 0)

/-- The full mutable state of the program: the control state, the delay
buffer, the crossfade position variables and the three knob globals. -/
structure Engine where
  ctl : Ctl
  buffer : ℕ → ℚ
  fade : ℚ
  xpos : ℚ
  delayTimeSec : ℚ
  wetMix : ℚ
  feedback : ℚ

/-- Line 103: the value assigned to delayTimeSec on every sample,
(kMinDelaySec + (kMaxDelaySec - kMinDelaySec)) * 0.5f. -/
def delayTimeSecConst : ℚ := (kMinDelaySec + (kMaxDelaySec - kMinDelaySec)) * (1 / 2)

/-- size_t cast of the (positive) float value delayTimeSamp: truncation
toward zero, num/den in integer division. -/
def ratToLen (q : ℚ) : ℕ := (q.num / (q.den : ℤ)).toNat

/-- The delay length in samples that every StartSegment call of the
callback receives: delayTimeSamp = delayTimeSec * kSampleRate, cast to
size_t at the call. -/
def LEngine : ℕ := ratToLen (delayTimeSecConst * kSampleRateQ)

/-- DaisySP CrossFade::Process with the CROSSFADE_LIN curve:
out = in1 * (1 - pos) + in2 * pos. -/
def xfadeProcess (pos a b : ℚ) : ℚ := a * (1 - pos) + b * pos

/-- One sample of AudioCallback (lines 101-195) with the computed delay
length L made explicit: produces the next state and the emitted output
sample. -/
def engineStepL (L : ℕ) (e : Engine) (x : ℚ) : Engine × ℚ :=
  let c1 := ctlStartupPhase L e.ctl
  let yA : ℚ := if c1.segA.active then e.buffer c1.segA.head else 0
  let yB : ℚ := if c1.segB.active then e.buffer c1.segB.head else 0
  let c2 := ctlSegsPhase c1
  let xpos2 : ℚ := if c2.fading then e.fade else e.xpos
  let fade2 : ℚ :=
    if c2.fading ∧ c2.fadeCount < kFadeTime then
      (if c2.fadeSwap then e.fade - kFadeStep else e.fade + kFadeStep)
    else e.fade
  let c3 := ctlFadePhase c2
  let outputMix : ℚ := xfadeProcess xpos2 yA yB
  let outSample : ℚ := x + (1 / 2) * outputMix
  let buffer2 : ℕ → ℚ := fun i => if i = e.ctl.writePos then x else e.buffer i
  let fade3 : ℚ := if trigCond c3 then (if c3.aLag then 1 else 0) else fade2
  let d4 := ctlTrigPhase L c3
  let d5 := ctlRetirePhase d4
  let d6 := ctlAdvancePhase d5
  ({ ctl := d6, buffer := buffer2, fade := fade3, xpos := xpos2,
     delayTimeSec := delayTimeSecConst, wetMix := e.wetMix, feedback := e.feedback },
   outSample)

/-- One sample of AudioCallback as the program runs it: every
StartSegment call receives the length LEngine computed on line 103/104. -/
def engineStep (e : Engine) (x : ℚ) : Engine × ℚ := engineStepL LEngine e x

/-- Program start state: zero-initialized globals, xfade.Init() leaves
the CrossFade position at 0.5, the knob globals hold their declared
initial values. -/
def engineInit : Engine :=
  { ctl := ctlInit, buffer := fun _ => 0, fade := 0, xpos := 1 / 2,
    delayTimeSec := 1 / 4, wetMix := 1 / 2, feedback := 0 }

/-- The states the program can reach: the start state, an audio callback
sample, or the main loop overwriting the three knob globals. -/
inductive ReachE : Engine → Prop where
  | init : ReachE engineInit
  | audio : ∀ {e}, ReachE e → ∀ x, ReachE (engineStep e x).1
  | ctrl : ∀ {e}, ReachE e → ∀ d w f,
      ReachE { e with delayTimeSec := d, wetMix := w, feedback := f }

/-- The main loop writing the three knob globals between samples. -/
def setCtrls (e : Engine) (p : ℚ × ℚ × ℚ) : Engine :=
  { e with delayTimeSec := p.1, wetMix := p.2.1, feedback := p.2.2 }

/-- A run of the callback on an input stream, with an arbitrary schedule
of knob values written before each sample; returns the output stream. -/
def runOuts (ctrl : ℕ → ℚ × ℚ × ℚ) : Engine → List ℚ → List ℚ
  | _, [] => []
  | e, x :: xs =>
      let r := engineStep (setCtrls e (ctrl 0)) x
      r.2 :: runOuts (fun n => ctrl (n + 1)) r.1 xs

/-- n callback samples on all-zero input from a given state. -/
def zrun (e : Engine) : ℕ → Engine
  | 0 => e
  | n + 1 => (engineStep (zrun e n) 0).1

/-- The output sample the callback emits on the zero input following n
zero inputs from a given state. -/
def zOut (e : Engine) (n : ℕ) : ℚ := (engineStep (zrun e n) 0).2

/-- n further callback samples, control part, applied to a given state. -/
def stepN (L : ℕ) : ℕ → Ctl → Ctl
  | 0, c => c
  | n + 1, c => stepN L n (ctlStep L c)

lemma ctlIter_add (L m n : ℕ) : ctlIter L (m + n) = stepN L n (ctlIter L m) := by
  induction n generalizing m with
  | zero => simp [stepN]
  | succ n ih =>
      rw [show m + (n + 1) = (m + 1) + n from by omega, ih]
      simp [ctlIter, stepN]

lemma dtsConst_eq : delayTimeSecConst * kSampleRateQ = 47760 := by
  norm_num [delayTimeSecConst, kMinDelaySec, kMaxDelaySec, kSampleRateQ, kBufferSize,
    kFadeTime, kMinDelaySamps, kMaxDelaySamps]

lemma lEngine_eq : LEngine = 47760 := by
  rw [LEngine, dtsConst_eq, ratToLen]
  norm_num
  rfl

lemma engineStepL_ctl (L : ℕ) (e : Engine) (x : ℚ) :
    (engineStepL L e x).1.ctl = ctlStep L e.ctl := rfl

lemma engineStep_ctl (e : Engine) (x : ℚ) :
    (engineStep e x).1.ctl = ctlStep LEngine e.ctl := rfl

@[simp] lemma ctlSegsPhase_writePos (c : Ctl) : (ctlSegsPhase c).writePos = c.writePos := rfl

@[simp] lemma ctlSegsPhase_aLag (c : Ctl) : (ctlSegsPhase c).aLag = c.aLag := rfl

@[simp] lemma ctlSegsPhase_fadeCount (c : Ctl) : (ctlSegsPhase c).fadeCount = c.fadeCount := rfl

@[simp] lemma ctlSegsPhase_fading (c : Ctl) : (ctlSegsPhase c).fading = c.fading := rfl

@[simp] lemma ctlSegsPhase_fadeSwap (c : Ctl) : (ctlSegsPhase c).fadeSwap = c.fadeSwap := rfl

@[simp] lemma ctlSegsPhase_startup (c : Ctl) : (ctlSegsPhase c).startup = c.startup := rfl

@[simp] lemma ctlFadePhase_segA (c : Ctl) : (ctlFadePhase c).segA = c.segA := by
  unfold ctlFadePhase; split_ifs <;> rfl

@[simp] lemma ctlFadePhase_segB (c : Ctl) : (ctlFadePhase c).segB = c.segB := by
  unfold ctlFadePhase; split_ifs <;> rfl

@[simp] lemma ctlFadePhase_writePos (c : Ctl) : (ctlFadePhase c).writePos = c.writePos := by
  unfold ctlFadePhase; split_ifs <;> rfl

@[simp] lemma ctlFadePhase_aLag (c : Ctl) : (ctlFadePhase c).aLag = c.aLag := by
  unfold ctlFadePhase; split_ifs <;> rfl

@[simp] lemma ctlFadePhase_startup (c : Ctl) : (ctlFadePhase c).startup = c.startup := by
  unfold ctlFadePhase; split_ifs <;> rfl

@[simp] lemma ctlTrigPhase_writePos (L : ℕ) (c : Ctl) :
    (ctlTrigPhase L c).writePos = c.writePos := by
  unfold ctlTrigPhase; split_ifs <;> rfl

@[simp] lemma ctlTrigPhase_startup (L : ℕ) (c : Ctl) :
    (ctlTrigPhase L c).startup = c.startup := by
  unfold ctlTrigPhase; split_ifs <;> rfl

@[simp] lemma ctlTrigPhase_fadeCount (L : ℕ) (c : Ctl) :
    (ctlTrigPhase L c).fadeCount = c.fadeCount := by
  unfold ctlTrigPhase; split_ifs <;> rfl

@[simp] lemma ctlTrigPhase_fadeSwap (L : ℕ) (c : Ctl) :
    (ctlTrigPhase L c).fadeSwap = c.fadeSwap := by
  unfold ctlTrigPhase; split_ifs <;> rfl

@[simp] lemma ctlRetirePhase_writePos (c : Ctl) : (ctlRetirePhase c).writePos = c.writePos := by
  simp only [ctlRetirePhase]; split_ifs <;> rfl

@[simp] lemma ctlRetirePhase_aLag (c : Ctl) : (ctlRetirePhase c).aLag = c.aLag := by
  simp only [ctlRetirePhase]; split_ifs <;> rfl

@[simp] lemma ctlRetirePhase_fadeCount (c : Ctl) : (ctlRetirePhase c).fadeCount = c.fadeCount := by
  simp only [ctlRetirePhase]; split_ifs <;> rfl

@[simp] lemma ctlRetirePhase_fading (c : Ctl) : (ctlRetirePhase c).fading = c.fading := by
  simp only [ctlRetirePhase]; split_ifs <;> rfl

@[simp] lemma ctlRetirePhase_fadeSwap (c : Ctl) : (ctlRetirePhase c).fadeSwap = c.fadeSwap := by
  simp only [ctlRetirePhase]; split_ifs <;> rfl

@[simp] lemma ctlRetirePhase_startup (c : Ctl) : (ctlRetirePhase c).startup = c.startup := by
  simp only [ctlRetirePhase]; split_ifs <;> rfl

@[simp] lemma ctlAdvancePhase_segA (c : Ctl) : (ctlAdvancePhase c).segA = c.segA := rfl

@[simp] lemma ctlAdvancePhase_segB (c : Ctl) : (ctlAdvancePhase c).segB = c.segB := rfl

@[simp] lemma ctlAdvancePhase_aLag (c : Ctl) : (ctlAdvancePhase c).aLag = c.aLag := rfl

@[simp] lemma ctlAdvancePhase_fadeCount (c : Ctl) :
    (ctlAdvancePhase c).fadeCount = c.fadeCount := rfl

@[simp] lemma ctlAdvancePhase_fading (c : Ctl) : (ctlAdvancePhase c).fading = c.fading := rfl

@[simp] lemma ctlAdvancePhase_fadeSwap (c : Ctl) : (ctlAdvancePhase c).fadeSwap = c.fadeSwap := rfl

@[simp] lemma ctlAdvancePhase_startup (c : Ctl) : (ctlAdvancePhase c).startup = c.startup := rfl

@[simp] lemma ctlAdvancePhase_writePos (c : Ctl) :
    (ctlAdvancePhase c).writePos = (c.writePos + 1) % kBufferSize := rfl

@[simp] lemma ctlStartupPhase_writePos (L : ℕ) (c : Ctl) :
    (ctlStartupPhase L c).writePos = c.writePos := by
  unfold ctlStartupPhase; split_ifs <;> rfl

@[simp] lemma ctlStartupPhase_fadeCount (L : ℕ) (c : Ctl) :
    (ctlStartupPhase L c).fadeCount = c.fadeCount := by
  unfold ctlStartupPhase; split_ifs <;> rfl

@[simp] lemma ctlStartupPhase_fading (L : ℕ) (c : Ctl) :
    (ctlStartupPhase L c).fading = c.fading := by
  unfold ctlStartupPhase; split_ifs <;> rfl

@[simp] lemma ctlStartupPhase_fadeSwap (L : ℕ) (c : Ctl) :
    (ctlStartupPhase L c).fadeSwap = c.fadeSwap := by
  unfold ctlStartupPhase; split_ifs <;> rfl

/-- Two engine states that agree on everything except the three knob
globals the main loop writes. -/
def EqCore (a b : Engine) : Prop :=
  a.ctl = b.ctl ∧ a.buffer = b.buffer ∧ a.fade = b.fade ∧ a.xpos = b.xpos

lemma engineStepL_core (L : ℕ) (a b : Engine) (x : ℚ) (h : EqCore a b) :
    (engineStepL L a x).2 = (engineStepL L b x).2 ∧
      EqCore (engineStepL L a x).1 (engineStepL L b x).1 := by
  obtain ⟨h1, h2, h3, h4⟩ := h
  cases a; cases b
  simp only at h1 h2 h3 h4
  subst h1; subst h2; subst h3; subst h4
  exact ⟨rfl, rfl, rfl, rfl, rfl⟩

lemma setCtrls_core (a b : Engine) (p q : ℚ × ℚ × ℚ) (h : EqCore a b) :
    EqCore (setCtrls a p) (setCtrls b q) := h

lemma runOuts_core (xs : List ℚ) :
    ∀ (a b : Engine) (f g : ℕ → ℚ × ℚ × ℚ), EqCore a b →
      runOuts f a xs = runOuts g b xs := by
  induction xs with
  | nil => intro a b f g _; rfl
  | cons x xs ih =>
      intro a b f g h
      have hs := engineStepL_core LEngine (setCtrls a (f 0)) (setCtrls b (g 0)) x
        (setCtrls_core a b (f 0) (g 0) h)
      simp only [runOuts, engineStep] at *
      rw [hs.1, ih _ _ _ _ hs.2]

lemma ctlStartupPhase_of_false {c : Ctl} (L : ℕ) (h : c.startup = false) :
    ctlStartupPhase L c = c := by
  unfold ctlStartupPhase; simp [h]

lemma ctlStartupPhase_of_true {c : Ctl} (L : ℕ) (h : c.startup = true) :
    ctlStartupPhase L c =
      { c with segA := ⟨c.writePos, c.writePos, L, 0, true⟩, segB := deactivatedSeg,
               aLag := !c.aLag, startup := false } := by
  unfold ctlStartupPhase StartSegment; simp [h]

lemma ctlStartupPhase_aLag (L : ℕ) (c : Ctl) :
    (ctlStartupPhase L c).aLag = if c.startup then !c.aLag else c.aLag := by
  unfold ctlStartupPhase; split_ifs <;> rfl

lemma ctlFadePhase_of_false {c : Ctl} (h : c.fading = false) : ctlFadePhase c = c := by
  unfold ctlFadePhase; simp [h]

lemma ctlFadePhase_of_lt {c : Ctl} (h : c.fading = true) (h2 : c.fadeCount < kFadeTime) :
    ctlFadePhase c = { c with fadeCount := c.fadeCount + 1 } := by
  unfold ctlFadePhase; simp [h, h2]

lemma ctlFadePhase_of_end {c : Ctl} (h : c.fading = true) (h2 : ¬ c.fadeCount < kFadeTime) :
    ctlFadePhase c = { c with fading := false, fadeCount := 0, fadeSwap := !c.fadeSwap } := by
  unfold ctlFadePhase; simp [h, h2]

lemma ctlTrigPhase_of_not {c : Ctl} (L : ℕ) (h : ¬ trigCond c) : ctlTrigPhase L c = c := by
  unfold ctlTrigPhase
  split_ifs with h1 h2 h3 <;> try rfl
  · exact absurd ⟨h2.1, Or.inl ⟨h1, h2.2⟩⟩ h
  · exact absurd ⟨h3.1, Or.inr ⟨by simpa using h1, h3.2⟩⟩ h

lemma ctlTrigPhase_of_fire_true {c : Ctl} (L : ℕ) (h1 : c.aLag = true) (h2 : trigCond c) :
    ctlTrigPhase L c =
      { c with fading := true, segA := ⟨c.writePos, c.writePos, L, 0, true⟩,
               aLag := !c.aLag } := by
  obtain ⟨hf, hor⟩ := h2
  rcases hor with ⟨_, hB⟩ | ⟨hfalse, _⟩
  · unfold ctlTrigPhase StartSegment
    simp [h1, hf, hB]
  · rw [h1] at hfalse; cases hfalse

lemma ctlTrigPhase_of_fire_false {c : Ctl} (L : ℕ) (h1 : c.aLag = false) (h2 : trigCond c) :
    ctlTrigPhase L c =
      { c with fading := true, segB := ⟨c.writePos, c.writePos, L, 0, true⟩,
               aLag := !c.aLag } := by
  obtain ⟨hf, hor⟩ := h2
  rcases hor with ⟨htrue, _⟩ | ⟨_, hA⟩
  · rw [h1] at htrue; cases htrue
  · unfold ctlTrigPhase StartSegment
    simp [h1, hf, hA]

lemma ctlTrigPhase_aLag (L : ℕ) (c : Ctl) :
    (ctlTrigPhase L c).aLag = if trigCond c then !c.aLag else c.aLag := by
  by_cases ht : trigCond c
  · cases haL : c.aLag
    · rw [ctlTrigPhase_of_fire_false L haL ht]; simp [ht, haL]
    · rw [ctlTrigPhase_of_fire_true L haL ht]; simp [ht, haL]
  · rw [ctlTrigPhase_of_not L ht]; simp [ht]

lemma ctlRetirePhase_segA (c : Ctl) :
    (ctlRetirePhase c).segA =
      if c.segA.len ≤ c.segA.played then deactivatedSeg else c.segA := by
  simp only [ctlRetirePhase]; split_ifs <;> rfl

lemma ctlRetirePhase_segB (c : Ctl) :
    (ctlRetirePhase c).segB =
      if c.segB.len ≤ c.segB.played then deactivatedSeg else c.segB := by
  simp only [ctlRetirePhase]; split_ifs <;> rfl

lemma ctlSegsPhase_segA (c : Ctl) :
    (ctlSegsPhase c).segA = if c.segA.active then stepSeg c.segA else c.segA := rfl

lemma ctlSegsPhase_segB (c : Ctl) :
    (ctlSegsPhase c).segB = if c.segB.active then stepSeg c.segB else c.segB := rfl

lemma ctlStep_aLag (L : ℕ) (c : Ctl) :
    (ctlStep L c).aLag = if startCount L c % 2 = 1 then !c.aLag else c.aLag := by
  have h1 : (ctlStep L c).aLag =
      if trigCond (ctlFadePhase (ctlSegsPhase (ctlStartupPhase L c)))
        then !(ctlStartupPhase L c).aLag else (ctlStartupPhase L c).aLag := by
    unfold ctlStep
    rw [ctlAdvancePhase_aLag, ctlRetirePhase_aLag, ctlTrigPhase_aLag]
    simp
  rw [h1]
  unfold startCount
  by_cases hs : c.startup = true <;>
    by_cases ht : trigCond (ctlFadePhase (ctlSegsPhase (ctlStartupPhase L c))) <;>
      simp [hs, ht, ctlStartupPhase_aLag, Bool.not_eq_true] <;> simp_all

/-- Every buffer index the state holds is inside the ring. -/
def wfC (c : Ctl) : Prop :=
  c.writePos < kBufferSize ∧ c.segA.head < kBufferSize ∧ c.segB.head < kBufferSize

lemma wrapDec_lt {x : ℕ} (h : x < kBufferSize) : wrapDec x < kBufferSize := by
  unfold wrapDec kBufferSize at *
  split_ifs <;> omega

lemma wfC_startupPhase {c : Ctl} (L : ℕ) (h : wfC c) : wfC (ctlStartupPhase L c) := by
  obtain ⟨h1, h2, h3⟩ := h
  by_cases hs : c.startup = true
  · rw [ctlStartupPhase_of_true L hs]
    exact ⟨h1, h1, by simp [deactivatedSeg, kBufferSize]⟩
  · rw [ctlStartupPhase_of_false L (by simpa using hs)]
    exact ⟨h1, h2, h3⟩

lemma wfC_segsPhase {c : Ctl} (h : wfC c) : wfC (ctlSegsPhase c) := by
  obtain ⟨h1, h2, h3⟩ := h
  refine ⟨h1, ?_, ?_⟩
  · rw [ctlSegsPhase_segA]
    split_ifs
    · exact wrapDec_lt h2
    · exact h2
  · rw [ctlSegsPhase_segB]
    split_ifs
    · exact wrapDec_lt h3
    · exact h3

lemma wfC_fadePhase {c : Ctl} (h : wfC c) : wfC (ctlFadePhase c) := by
  obtain ⟨h1, h2, h3⟩ := h
  exact ⟨by simpa using h1, by rw [ctlFadePhase_segA]; exact h2,
    by rw [ctlFadePhase_segB]; exact h3⟩

lemma wfC_trigPhase {c : Ctl} (L : ℕ) (h : wfC c) : wfC (ctlTrigPhase L c) := by
  obtain ⟨h1, h2, h3⟩ := h
  by_cases ht : trigCond c
  · cases haL : c.aLag
    · rw [ctlTrigPhase_of_fire_false L haL ht]
      exact ⟨h1, h2, h1⟩
    · rw [ctlTrigPhase_of_fire_true L haL ht]
      exact ⟨h1, h1, h3⟩
  · rw [ctlTrigPhase_of_not L ht]
    exact ⟨h1, h2, h3⟩

lemma wfC_retirePhase {c : Ctl} (h : wfC c) : wfC (ctlRetirePhase c) := by
  obtain ⟨h1, h2, h3⟩ := h
  refine ⟨by simpa using h1, ?_, ?_⟩
  · rw [ctlRetirePhase_segA]
    split_ifs
    · simp [deactivatedSeg, kBufferSize]
    · exact h2
  · rw [ctlRetirePhase_segB]
    split_ifs
    · simp [deactivatedSeg, kBufferSize]
    · exact h3

lemma wfC_advancePhase {c : Ctl} (h : wfC c) : wfC (ctlAdvancePhase c) := by
  obtain ⟨_, h2, h3⟩ := h
  exact ⟨Nat.mod_lt _ (by unfold kBufferSize; omega), h2, h3⟩

lemma wfC_step {c : Ctl} (L : ℕ) (h : wfC c) : wfC (ctlStep L c) :=
  wfC_advancePhase (wfC_retirePhase (wfC_trigPhase L
    (wfC_fadePhase (wfC_segsPhase (wfC_startupPhase L h)))))

lemma wfC_init : wfC ctlInit := by
  unfold wfC
  refine ⟨?_, ?_, ?_⟩ <;> decide

lemma wfC_iter (L n : ℕ) : wfC (ctlIter L n) := by
  induction n with
  | zero => exact wfC_init
  | succ n ih => exact wfC_step L ih

lemma reach_ctl {e : Engine} (h : ReachE e) : ∃ n, e.ctl = ctlIter LEngine n := by
  induction h with
  | init => exact ⟨0, rfl⟩
  | audio h x ih =>
      obtain ⟨n, hn⟩ := ih
      exact ⟨n + 1, by rw [engineStep_ctl, hn]; rfl⟩
  | ctrl h d w f ih => exact ih

/-- The length every active segment carries in a reachable control state. -/
def lenInv (L : ℕ) (c : Ctl) : Prop :=
  (c.segA.active = true → c.segA.len = L) ∧ (c.segB.active = true → c.segB.len = L)

lemma lenInv_step {c : Ctl} (L : ℕ) (h : lenInv L c) : lenInv L (ctlStep L c) := by
  obtain ⟨hA, hB⟩ := h
  unfold ctlStep
  have h1 : lenInv L (ctlStartupPhase L c) := by
    by_cases hs : c.startup = true
    · rw [ctlStartupPhase_of_true L hs]
      exact ⟨fun _ => rfl, fun hb => by cases hb⟩
    · rw [ctlStartupPhase_of_false L (by simpa using hs)]
      exact ⟨hA, hB⟩
  set c1 := ctlStartupPhase L c with hc1
  have h2 : lenInv L (ctlSegsPhase c1) := by
    obtain ⟨hA1, hB1⟩ := h1
    constructor
    · rw [ctlSegsPhase_segA]
      split_ifs with ha
      · intro _; exact hA1 ha
      · exact hA1
    · rw [ctlSegsPhase_segB]
      split_ifs with hb
      · intro _; exact hB1 hb
      · exact hB1
  set c2 := ctlSegsPhase c1 with hc2
  have h3 : lenInv L (ctlFadePhase c2) := by
    obtain ⟨hA2, hB2⟩ := h2
    exact ⟨by rw [ctlFadePhase_segA]; exact hA2, by rw [ctlFadePhase_segB]; exact hB2⟩
  set c3 := ctlFadePhase c2 with hc3
  have h4 : lenInv L (ctlTrigPhase L c3) := by
    obtain ⟨hA3, hB3⟩ := h3
    by_cases ht : trigCond c3
    · cases haL : c3.aLag
      · rw [ctlTrigPhase_of_fire_false L haL ht]
        exact ⟨hA3, fun _ => rfl⟩
      · rw [ctlTrigPhase_of_fire_true L haL ht]
        exact ⟨fun _ => rfl, hB3⟩
    · rw [ctlTrigPhase_of_not L ht]
      exact ⟨hA3, hB3⟩
  set c4 := ctlTrigPhase L c3 with hc4
  have h5 : lenInv L (ctlRetirePhase c4) := by
    obtain ⟨hA4, hB4⟩ := h4
    constructor
    · rw [ctlRetirePhase_segA]
      split_ifs
      · intro hb; cases hb
      · exact hA4
    · rw [ctlRetirePhase_segB]
      split_ifs
      · intro hb; cases hb
      · exact hB4
  obtain ⟨hA5, hB5⟩ := h5
  exact ⟨hA5, hB5⟩

lemma lenInv_iter (L n : ℕ) : lenInv L (ctlIter L n) := by
  induction n with
  | zero =>
      refine ⟨fun hb => ?_, fun hb => ?_⟩ <;>
        simp [ctlIter, ctlInit, deactivatedSeg] at hb
  | succ n ih => exact lenInv_step L ih

lemma engineStep_eq_47760 : engineStep = engineStepL 47760 := by
  funext e x
  rw [engineStep, lEngine_eq]

/-- Claim C1: the delay length consumed by the core respects the
guardrails: the configured minimum is strictly greater than the fade
window, and in every reachable state every active segment carries a
length within kMinDelaySamps and kMaxDelaySamps (every StartSegment call
passes this in-range length). -/
theorem c1_delay_length_within_guardrails (e : Engine) (h : ReachE e) :
    kFadeTime < kMinDelaySamps ∧
    (e.ctl.segA.active = true →
      kMinDelaySamps ≤ e.ctl.segA.len ∧ e.ctl.segA.len ≤ kMaxDelaySamps) ∧
    (e.ctl.segB.active = true →
      kMinDelaySamps ≤ e.ctl.segB.len ∧ e.ctl.segB.len ≤ kMaxDelaySamps) := by
  obtain ⟨n, hn⟩ := reach_ctl h
  have hlen := lenInv_iter LEngine n
  rw [← hn] at hlen
  obtain ⟨hA, hB⟩ := hlen
  have hbound : kMinDelaySamps ≤ LEngine ∧ LEngine ≤ kMaxDelaySamps := by
    rw [lEngine_eq]
    exact ⟨by decide, by decide⟩
  exact ⟨by decide, fun ha => by rw [hA ha]; exact hbound,
    fun hb => by rw [hB hb]; exact hbound⟩

theorem c1_witness :
    kFadeTime < kMinDelaySamps ∧
    (engineInit.ctl.segA.active = true →
      kMinDelaySamps ≤ engineInit.ctl.segA.len ∧ engineInit.ctl.segA.len ≤ kMaxDelaySamps) ∧
    (engineInit.ctl.segB.active = true →
      kMinDelaySamps ≤ engineInit.ctl.segB.len ∧ engineInit.ctl.segB.len ≤ kMaxDelaySamps) :=
  c1_delay_length_within_guardrails engineInit ReachE.init

/-- Claim C2: two runs of the callback on the same input stream from the
same engine state produce identical output streams whatever knob values
(delayTimeSec, wetMix, feedback) the main loop writes before each sample:
the callback overwrites the delay time with a constant, mixes the wet
signal at the fixed 0.5 gain and writes the raw input to the buffer. -/
theorem c2_controls_have_no_influence (e : Engine) (f g : ℕ → ℚ × ℚ × ℚ)
    (xs : List ℚ) : runOuts f e xs = runOuts g e xs :=
  runOuts_core xs e e f g ⟨rfl, rfl, rfl, rfl⟩

/-- Claim C7: in every reachable state the write cursor and both segment
heads are strictly below the buffer capacity. -/
theorem c7_index_safety (e : Engine) (h : ReachE e) :
    e.ctl.writePos < kBufferSize ∧ e.ctl.segA.head < kBufferSize ∧
      e.ctl.segB.head < kBufferSize := by
  obtain ⟨n, hn⟩ := reach_ctl h
  rw [hn]
  exact wfC_iter LEngine n

theorem c7_witness :
    engineInit.ctl.writePos < kBufferSize ∧ engineInit.ctl.segA.head < kBufferSize ∧
      engineInit.ctl.segB.head < kBufferSize :=
  c7_index_safety engineInit ReachE.init

/-- Claim C9: StartSegment sets head = start = the given index, resets
playedCount, activates the segment and toggles the shared lead/lag flag
exactly once; over a whole callback sample the flag value changes iff an
odd number of StartSegment calls happened, so it never toggles on a
sample with no segment start. -/
theorem c9_start_postcondition_and_alternation :
    (∀ (s : Seg) (w len : ℕ) (a : Bool),
      (StartSegment s w len a).1.head = w ∧ (StartSegment s w len a).1.start = w ∧
      (StartSegment s w len a).1.len = len ∧ (StartSegment s w len a).1.played = 0 ∧
      (StartSegment s w len a).1.active = true ∧ (StartSegment s w len a).2 = !a) ∧
    (∀ (L : ℕ) (c : Ctl),
      (ctlStep L c).aLag = if startCount L c % 2 = 1 then !c.aLag else c.aLag) :=
  ⟨fun _ _ _ _ => ⟨rfl, rfl, rfl, rfl, rfl, rfl⟩, ctlStep_aLag⟩

/-- Claim C4 counterexample: the claim says a segment started on a given
sample, including the one started by the one-time startup block, is never
stepped on that sample; but the startup block runs before the stepping
block, so on sample 0 the startup-started segment A is stepped (its play
count is already 1 and its head has moved off the write cursor). -/
theorem c4_cex :
    (engineStep engineInit 0).1.ctl.segA.played = 1 ∧
    (engineStep engineInit 0).1.ctl.segA.active = true ∧
    (engineStep engineInit 0).1.ctl.segA.head = kBufferSize - 1 := by
  rw [engineStep_eq_47760]
  exact ⟨by decide, by decide, by decide⟩

/-- Claim C4 (amended): stepping and mixing happen before the handoff
trigger, so a segment started by the trigger is not stepped on its start
sample (its head still sits at the write cursor and its play count is 0);
the buffer write of the input happens after all segment reads, so the wet
part of the emitted sample never depends on the current input, and the
input lands at the write cursor; the segment started by the one-time
startup block, however, IS stepped on the startup sample. -/
theorem c4_amended :
    (∀ (e : Engine) (x : ℚ), e.ctl.startup = false →
      trigCond (ctlFadePhase (ctlSegsPhase (ctlStartupPhase LEngine e.ctl))) →
      ((e.ctl.aLag = true → (engineStep e x).1.ctl.segA.head = e.ctl.writePos ∧
          (engineStep e x).1.ctl.segA.played = 0) ∧
       (e.ctl.aLag = false → (engineStep e x).1.ctl.segB.head = e.ctl.writePos ∧
          (engineStep e x).1.ctl.segB.played = 0))) ∧
    (∀ (e : Engine) (x y : ℚ), (engineStep e x).2 - x = (engineStep e y).2 - y) ∧
    (∀ (e : Engine) (x : ℚ), (engineStep e x).1.buffer e.ctl.writePos = x) := by
  refine ⟨?_, ?_, ?_⟩
  · intro e x hs ht
    have hctl : (engineStep e x).1.ctl = ctlStep LEngine e.ctl := rfl
    rw [ctlStartupPhase_of_false LEngine hs] at ht
    constructor
    · intro haL
      have hmaL : (ctlFadePhase (ctlSegsPhase e.ctl)).aLag = true := by simpa using haL
      rw [hctl]
      unfold ctlStep
      rw [ctlStartupPhase_of_false LEngine hs,
        ctlTrigPhase_of_fire_true LEngine hmaL ht]
      simp [ctlRetirePhase_segA, lEngine_eq]
    · intro haL
      have hmaL : (ctlFadePhase (ctlSegsPhase e.ctl)).aLag = false := by simpa using haL
      rw [hctl]
      unfold ctlStep
      rw [ctlStartupPhase_of_false LEngine hs,
        ctlTrigPhase_of_fire_false LEngine hmaL ht]
      simp [ctlRetirePhase_segB, lEngine_eq]
  · intro e x y
    simp only [engineStep, engineStepL]
    ring
  · intro e x
    simp [engineStep, engineStepL]

/-- A concrete engine state past startup, with segment A active, used to
instantiate the per-step scheduler theorems. -/
def egA : Engine :=
  { ctl := ⟨5, ⟨7, 7, 10, 8, true⟩, ⟨0, 0, 0, 0, false⟩, false, 0, false, false, false⟩,
    buffer := fun _ => 0, fade := 0, xpos := 0, delayTimeSec := 0, wetMix := 0, feedback := 0 }

theorem c4_witness :
    (engineStep egA 0).1.ctl.segB.head = egA.ctl.writePos ∧
      (engineStep egA 0).1.ctl.segB.played = 0 :=
  (c4_amended.1 egA 0 rfl (by decide)).2 rfl

lemma engineStep_segA_post (e : Engine) (x : ℚ) (hs : e.ctl.startup = false) :
    (engineStep e x).1.ctl.segA =
      (ctlRetirePhase (ctlTrigPhase LEngine (ctlFadePhase (ctlSegsPhase e.ctl)))).segA := by
  have h : (engineStep e x).1.ctl = ctlStep LEngine e.ctl := rfl
  rw [h]
  unfold ctlStep
  rw [ctlStartupPhase_of_false LEngine hs, ctlAdvancePhase_segA]

lemma engineStep_segB_post (e : Engine) (x : ℚ) (hs : e.ctl.startup = false) :
    (engineStep e x).1.ctl.segB =
      (ctlRetirePhase (ctlTrigPhase LEngine (ctlFadePhase (ctlSegsPhase e.ctl)))).segB := by
  have h : (engineStep e x).1.ctl = ctlStep LEngine e.ctl := rfl
  rw [h]
  unfold ctlStep
  rw [ctlStartupPhase_of_false LEngine hs, ctlAdvancePhase_segB]

/-- Claim C8: after startup, a segment is deactivated on exactly the
sample in which its play count reaches its length (the unconditional
retire check fires iff playedCount has reached length), and an active
segment whose play count has not yet reached its length after this
sample's step stays active; the only caveat is a re-start of the same
segment by the handoff trigger in that very sample, which replaces it by
a fresh active segment. -/
theorem c8_segment_expiry (e : Engine) (x : ℚ) (hs : e.ctl.startup = false) :
    (∀ c : Ctl,
      (ctlRetirePhase c).segA =
        (if c.segA.len ≤ c.segA.played then deactivatedSeg else c.segA) ∧
      (ctlRetirePhase c).segB =
        (if c.segB.len ≤ c.segB.played then deactivatedSeg else c.segB)) ∧
    (e.ctl.segA.active = true → e.ctl.segA.played + 1 < e.ctl.segA.len →
      (engineStep e x).1.ctl.segA.active = true) ∧
    (e.ctl.segA.active = true → e.ctl.segA.len ≤ e.ctl.segA.played + 1 →
      ¬ (e.ctl.aLag = true ∧ trigCond (ctlFadePhase (ctlSegsPhase e.ctl))) →
      (engineStep e x).1.ctl.segA.active = false) ∧
    (e.ctl.segB.active = true → e.ctl.segB.played + 1 < e.ctl.segB.len →
      (engineStep e x).1.ctl.segB.active = true) ∧
    (e.ctl.segB.active = true → e.ctl.segB.len ≤ e.ctl.segB.played + 1 →
      ¬ (e.ctl.aLag = false ∧ trigCond (ctlFadePhase (ctlSegsPhase e.ctl))) →
      (engineStep e x).1.ctl.segB.active = false) := by
  set m := ctlFadePhase (ctlSegsPhase e.ctl) with hmdef
  have hmaL : m.aLag = e.ctl.aLag := by simp [hmdef]
  refine ⟨fun c => ⟨ctlRetirePhase_segA c, ctlRetirePhase_segB c⟩, ?_, ?_, ?_, ?_⟩
  · intro hA hlt
    have hmA : m.segA = stepSeg e.ctl.segA := by
      rw [hmdef, ctlFadePhase_segA, ctlSegsPhase_segA, if_pos hA]
    rw [engineStep_segA_post e x hs]
    by_cases ht : trigCond m
    · cases haL : e.ctl.aLag
      · rw [ctlTrigPhase_of_fire_false LEngine (by rw [hmaL]; exact haL) ht,
          ctlRetirePhase_segA]
        simp only [hmA]
        rw [if_neg (by unfold stepSeg; simp; omega)]
        simpa [stepSeg] using hA
      · rw [ctlTrigPhase_of_fire_true LEngine (by rw [hmaL]; exact haL) ht,
          ctlRetirePhase_segA]
        simp [lEngine_eq]
    · rw [ctlTrigPhase_of_not LEngine ht, ctlRetirePhase_segA]
      simp only [hmA]
      rw [if_neg (by unfold stepSeg; simp; omega)]
      simpa [stepSeg] using hA
  · intro hA hge hnr
    have hmA : m.segA = stepSeg e.ctl.segA := by
      rw [hmdef, ctlFadePhase_segA, ctlSegsPhase_segA, if_pos hA]
    rw [engineStep_segA_post e x hs]
    by_cases ht : trigCond m
    · cases haL : e.ctl.aLag
      · rw [ctlTrigPhase_of_fire_false LEngine (by rw [hmaL]; exact haL) ht,
          ctlRetirePhase_segA]
        simp only [hmA]
        rw [if_pos (by unfold stepSeg; simp; omega)]
        rfl
      · exact absurd ⟨haL, ht⟩ hnr
    · rw [ctlTrigPhase_of_not LEngine ht, ctlRetirePhase_segA]
      simp only [hmA]
      rw [if_pos (by unfold stepSeg; simp; omega)]
      rfl
  · intro hB hlt
    have hmB : m.segB = stepSeg e.ctl.segB := by
      rw [hmdef, ctlFadePhase_segB, ctlSegsPhase_segB, if_pos hB]
    rw [engineStep_segB_post e x hs]
    by_cases ht : trigCond m
    · cases haL : e.ctl.aLag
      · rw [ctlTrigPhase_of_fire_false LEngine (by rw [hmaL]; exact haL) ht,
          ctlRetirePhase_segB]
        simp [lEngine_eq]
      · rw [ctlTrigPhase_of_fire_true LEngine (by rw [hmaL]; exact haL) ht,
          ctlRetirePhase_segB]
        simp only [hmB]
        rw [if_neg (by unfold stepSeg; simp; omega)]
        simpa [stepSeg] using hB
    · rw [ctlTrigPhase_of_not LEngine ht, ctlRetirePhase_segB]
      simp only [hmB]
      rw [if_neg (by unfold stepSeg; simp; omega)]
      simpa [stepSeg] using hB
  · intro hB hge hnr
    have hmB : m.segB = stepSeg e.ctl.segB := by
      rw [hmdef, ctlFadePhase_segB, ctlSegsPhase_segB, if_pos hB]
    rw [engineStep_segB_post e x hs]
    by_cases ht : trigCond m
    · cases haL : e.ctl.aLag
      · exact absurd ⟨haL, ht⟩ hnr
      · rw [ctlTrigPhase_of_fire_true LEngine (by rw [hmaL]; exact haL) ht,
          ctlRetirePhase_segB]
        simp only [hmB]
        rw [if_pos (by unfold stepSeg; simp; omega)]
        rfl
    · rw [ctlTrigPhase_of_not LEngine ht, ctlRetirePhase_segB]
      simp only [hmB]
      rw [if_pos (by unfold stepSeg; simp; omega)]
      rfl

/-- A concrete engine state in mid-fade with segment A one sample from
its length, used to instantiate the expiry theorem. -/
def egB : Engine :=
  { ctl := ⟨3, ⟨4, 4, 6, 5, true⟩, ⟨0, 0, 0, 0, false⟩, true, 3, true, false, false⟩,
    buffer := fun _ => 0, fade := 0, xpos := 0, delayTimeSec := 0, wetMix := 0, feedback := 0 }

theorem c8_witness : (engineStep egB 0).1.ctl.segA.active = false :=
  (c8_segment_expiry egB 0 rfl).2.2.1 rfl (by decide) (by decide)

lemma ctlStartupPhase_startup (L : ℕ) (c : Ctl) : (ctlStartupPhase L c).startup = false := by
  unfold ctlStartupPhase
  split_ifs with h
  · rfl
  · simpa using h

lemma ctlStep_startup (L : ℕ) (c : Ctl) : (ctlStep L c).startup = false := by
  unfold ctlStep
  simp [ctlStartupPhase_startup]

lemma ctlTrigPhase_fading (L : ℕ) (c : Ctl) :
    (ctlTrigPhase L c).fading = if trigCond c then true else c.fading := by
  by_cases ht : trigCond c
  · cases haL : c.aLag
    · rw [ctlTrigPhase_of_fire_false L haL ht]; simp [ht]
    · rw [ctlTrigPhase_of_fire_true L haL ht]; simp [ht]
  · rw [ctlTrigPhase_of_not L ht]; simp [ht]

lemma engineStepL_fade (L : ℕ) (e : Engine) (x : ℚ) :
    (engineStepL L e x).1.fade =
      (if trigCond (ctlFadePhase (ctlSegsPhase (ctlStartupPhase L e.ctl))) then
        (if (ctlFadePhase (ctlSegsPhase (ctlStartupPhase L e.ctl))).aLag then 1 else 0)
       else if (ctlSegsPhase (ctlStartupPhase L e.ctl)).fading ∧
              (ctlSegsPhase (ctlStartupPhase L e.ctl)).fadeCount < kFadeTime then
         (if (ctlSegsPhase (ctlStartupPhase L e.ctl)).fadeSwap then e.fade - kFadeStep
          else e.fade + kFadeStep)
       else e.fade) := rfl

/-- The crossfade bookkeeping invariant: outside a fade the direction
flag agrees with the lead/lag flag and the counter is reset; inside a
fade the direction flag is its negation, the counter never exceeds the
window, and the position is exactly the linear ramp value determined by
the counter. -/
def fadeInv (e : Engine) : Prop :=
  (e.ctl.startup = true → e.ctl.fading = false ∧ e.ctl.fadeCount = 0 ∧
    e.ctl.fadeSwap = !e.ctl.aLag) ∧
  (e.ctl.startup = false → e.ctl.fading = false →
    e.ctl.fadeSwap = e.ctl.aLag ∧ e.ctl.fadeCount = 0) ∧
  (e.ctl.startup = false → e.ctl.fading = true →
    e.ctl.fadeSwap = !e.ctl.aLag ∧ e.ctl.fadeCount ≤ kFadeTime ∧
    e.fade = (if e.ctl.fadeSwap then 1 - (e.ctl.fadeCount : ℚ) * kFadeStep
              else (e.ctl.fadeCount : ℚ) * kFadeStep))

lemma fadeInv_step (e : Engine) (x : ℚ) (h : fadeInv e) : fadeInv (engineStep e x).1 := by
  obtain ⟨hsu, hnf, hf⟩ := h
  have hctl : (engineStep e x).1.ctl = ctlStep LEngine e.ctl := rfl
  have hfadeq := engineStepL_fade LEngine e x
  rw [show engineStepL LEngine e x = engineStep e x from rfl] at hfadeq
  set c1 := ctlStartupPhase LEngine e.ctl with hc1
  set c2 := ctlSegsPhase c1 with hc2
  set c3 := ctlFadePhase c2 with hc3
  have hpost : (engineStep e x).1.ctl =
      ctlAdvancePhase (ctlRetirePhase (ctlTrigPhase LEngine c3)) := by
    rw [hctl]; rfl
  have hpostSu : (engineStep e x).1.ctl.startup = false := by
    rw [hctl]; exact ctlStep_startup LEngine e.ctl
  have hpostFading : (engineStep e x).1.ctl.fading =
      (if trigCond c3 then true else c3.fading) := by
    rw [hpost]; simp [ctlTrigPhase_fading]
  have hpostCount : (engineStep e x).1.ctl.fadeCount = c3.fadeCount := by
    rw [hpost]; simp
  have hpostSwap : (engineStep e x).1.ctl.fadeSwap = c3.fadeSwap := by
    rw [hpost]; simp
  have hpostALag : (engineStep e x).1.ctl.aLag =
      (if trigCond c3 then !c3.aLag else c3.aLag) := by
    rw [hpost]; simp [ctlTrigPhase_aLag]
  have hc2flags : c2.fading = e.ctl.fading ∧ c2.fadeCount = e.ctl.fadeCount ∧
      c2.fadeSwap = e.ctl.fadeSwap := by
    rw [hc2, hc1]; simp
  refine ⟨fun hbad => absurd hbad (by rw [hpostSu]; simp), ?_, ?_⟩
  all_goals intro _ hpf
  all_goals cases hsb : e.ctl.startup
  -- startup already done: c1 = e.ctl
  case refine_1.false =>
    have hc1eq : c1 = e.ctl := by rw [hc1]; exact ctlStartupPhase_of_false LEngine hsb
    cases hfc : e.ctl.fading
    · -- not fading before the sample: fade phase is the identity
      have hc3eq : c3 = c2 := by
        rw [hc3]; exact ctlFadePhase_of_false (by rw [hc2flags.1]; exact hfc)
      obtain ⟨hswl, hcnt⟩ := hnf hsb hfc
      by_cases ht : trigCond c3
      · rw [hpostFading, if_pos ht] at hpf; cases hpf
      · rw [hpostSwap, hpostALag, hpostCount, if_neg ht, hc3eq, hc2, hc1eq]
        simp [hswl, hcnt]
    · -- fading before the sample
      obtain ⟨hswl, hcle, hfdv⟩ := hf hsb hfc
      by_cases hlt : e.ctl.fadeCount < kFadeTime
      · -- mid fade: the counter advances and fading persists
        have hc3eq : c3 = { c2 with fadeCount := c2.fadeCount + 1 } := by
          rw [hc3]
          exact ctlFadePhase_of_lt (by rw [hc2flags.1]; exact hfc)
            (by rw [hc2flags.2.1]; exact hlt)
        have hc3f : c3.fading = true := by rw [hc3eq]; simpa [hc2flags.1] using hfc
        have ht : ¬ trigCond c3 := fun hcon => by rw [hcon.1] at hc3f; cases hc3f
        rw [hpostFading, if_neg ht, hc3f] at hpf
        cases hpf
      · -- last fade sample: fading ends and the direction flips
        have hc3eq :
            c3 = { c2 with fading := false, fadeCount := 0, fadeSwap := !c2.fadeSwap } := by
          rw [hc3]
          exact ctlFadePhase_of_end (by rw [hc2flags.1]; exact hfc)
            (by rw [hc2flags.2.1]; exact hlt)
        have hc3aLag : c3.aLag = e.ctl.aLag := by
          rw [hc3eq, hc2, hc1eq]; simp
        by_cases ht : trigCond c3
        · rw [hpostFading, if_pos ht] at hpf; cases hpf
        · rw [hpostSwap, hpostALag, hpostCount, if_neg ht, hc3eq, hc2, hc1eq]
          simp only [ctlSegsPhase_fadeSwap, ctlSegsPhase_aLag, ctlSegsPhase_fadeCount]
          rw [hswl]
          simp
  case refine_2.false =>
    have hc1eq : c1 = e.ctl := by rw [hc1]; exact ctlStartupPhase_of_false LEngine hsb
    cases hfc : e.ctl.fading
    · have hc3eq : c3 = c2 := by
        rw [hc3]; exact ctlFadePhase_of_false (by rw [hc2flags.1]; exact hfc)
      obtain ⟨hswl, hcnt⟩ := hnf hsb hfc
      by_cases ht : trigCond c3
      · -- a fresh fade begins at the endpoint the ramp leaves from
        have hc3aLag : c3.aLag = e.ctl.aLag := by rw [hc3eq, hc2, hc1eq]; simp
        rw [hpostSwap, hpostALag, hpostCount, if_pos ht, hfadeq, if_pos ht,
          hc3aLag, hc3eq, hc2, hc1eq]
        simp only [ctlSegsPhase_fadeSwap, ctlSegsPhase_fadeCount]
        rw [hswl, hcnt]
        cases haL : e.ctl.aLag <;> norm_num
      · rw [hpostFading, if_neg ht, hc3eq, hc2, hc1eq] at hpf
        simp only [ctlSegsPhase_fading] at hpf
        rw [hfc] at hpf; cases hpf
    · obtain ⟨hswl, hcle, hfdv⟩ := hf hsb hfc
      by_cases hlt : e.ctl.fadeCount < kFadeTime
      · -- mid fade: position moves one step along the ramp
        have hc3eq : c3 = { c2 with fadeCount := c2.fadeCount + 1 } := by
          rw [hc3]
          exact ctlFadePhase_of_lt (by rw [hc2flags.1]; exact hfc)
            (by rw [hc2flags.2.1]; exact hlt)
        have hc3f : c3.fading = true := by rw [hc3eq]; simpa [hc2flags.1] using hfc
        have ht : ¬ trigCond c3 := fun hcon => by rw [hcon.1] at hc3f; cases hc3f
        have hcond : c2.fading = true ∧ c2.fadeCount < kFadeTime := by
          rw [hc2flags.1, hc2flags.2.1]; exact ⟨hfc, hlt⟩
        rw [hpostSwap, hpostALag, hpostCount, if_neg ht, hfadeq, if_neg ht, if_pos hcond,
          hc3eq, hc2, hc1eq]
        simp only [ctlSegsPhase_fadeSwap, ctlSegsPhase_aLag, ctlSegsPhase_fadeCount]
        refine ⟨hswl, by omega, ?_⟩
        rw [hfdv]
        by_cases hsw : e.ctl.fadeSwap = true
        · simp only [if_pos hsw]
          push_cast
          ring
        · simp only [if_neg hsw]
          push_cast
          ring
      · -- the fade ended this sample and a new one may begin at once
        have hc3eq :
            c3 = { c2 with fading := false, fadeCount := 0, fadeSwap := !c2.fadeSwap } := by
          rw [hc3]
          exact ctlFadePhase_of_end (by rw [hc2flags.1]; exact hfc)
            (by rw [hc2flags.2.1]; exact hlt)
        have hc3aLag : c3.aLag = e.ctl.aLag := by rw [hc3eq, hc2, hc1eq]; simp
        by_cases ht : trigCond c3
        · rw [hpostSwap, hpostALag, hpostCount, if_pos ht, hfadeq, if_pos ht,
            hc3aLag, hc3eq, hc2, hc1eq]
          simp only [ctlSegsPhase_fadeSwap, ctlSegsPhase_fadeCount]
          rw [hswl]
          cases haL : e.ctl.aLag <;> norm_num
        · rw [hpostFading, if_neg ht, hc3eq] at hpf
          simp at hpf
  -- the startup sample itself
  case refine_1.true =>
    obtain ⟨hF, hC, hS⟩ := hsu hsb
    have hc1eq : c1 =
        { e.ctl with
            segA := ⟨e.ctl.writePos, e.ctl.writePos, LEngine, 0, true⟩,
            segB := deactivatedSeg, aLag := !e.ctl.aLag, startup := false } := by
      rw [hc1]; exact ctlStartupPhase_of_true LEngine hsb
    have hc3eq : c3 = c2 := by
      rw [hc3]
      refine ctlFadePhase_of_false ?_
      rw [hc2flags.1]; exact hF
    by_cases ht : trigCond c3
    · rw [hpostFading, if_pos ht] at hpf; cases hpf
    · rw [hpostSwap, hpostALag, hpostCount, if_neg ht, hc3eq, hc2, hc1eq]
      simp only [ctlSegsPhase_fadeSwap, ctlSegsPhase_aLag, ctlSegsPhase_fadeCount]
      rw [hS, hC]
      simp
  case refine_2.true =>
    obtain ⟨hF, hC, hS⟩ := hsu hsb
    have hc1eq : c1 =
        { e.ctl with
            segA := ⟨e.ctl.writePos, e.ctl.writePos, LEngine, 0, true⟩,
            segB := deactivatedSeg, aLag := !e.ctl.aLag, startup := false } := by
      rw [hc1]; exact ctlStartupPhase_of_true LEngine hsb
    have hc3eq : c3 = c2 := by
      rw [hc3]
      refine ctlFadePhase_of_false ?_
      rw [hc2flags.1]; exact hF
    by_cases ht : trigCond c3
    · have hc3aLag : c3.aLag = !e.ctl.aLag := by rw [hc3eq, hc2, hc1eq]; simp
      rw [hpostSwap, hpostALag, hpostCount, if_pos ht, hfadeq, if_pos ht,
        hc3aLag, hc3eq, hc2, hc1eq]
      simp only [ctlSegsPhase_fadeSwap, ctlSegsPhase_fadeCount]
      rw [hS, hC]
      cases haL : e.ctl.aLag <;> norm_num
    · rw [hpostFading, if_neg ht, hc3eq, hc2, hc1eq] at hpf
      simp only [ctlSegsPhase_fading] at hpf
      rw [hF] at hpf; cases hpf

lemma fadeInv_init : fadeInv engineInit :=
  ⟨fun _ => ⟨rfl, rfl, rfl⟩, fun hb => absurd hb (by decide), fun hb => absurd hb (by decide)⟩

lemma fadeInv_ctrl (e : Engine) (d w f : ℚ) (h : fadeInv e) :
    fadeInv { e with delayTimeSec := d, wetMix := w, feedback := f } := h

lemma fadeInv_reach {e : Engine} (h : ReachE e) : fadeInv e := by
  induction h with
  | init => exact fadeInv_init
  | audio h x ih => exact fadeInv_step _ x ih
  | ctrl h d w f ih => exact fadeInv_ctrl _ d w f ih

lemma fadeStep_mul_eq_one (k : ℕ) : ((k : ℚ) * kFadeStep = 1) ↔ k = kFadeTime := by
  unfold kFadeStep kFadeTime
  rw [mul_one_div, div_eq_one_iff_eq (by norm_num)]
  norm_cast

lemma c2flags_of (c : Ctl) (L : ℕ) :
    (ctlSegsPhase (ctlStartupPhase L c)).fading = c.fading ∧
    (ctlSegsPhase (ctlStartupPhase L c)).fadeCount = c.fadeCount ∧
    (ctlSegsPhase (ctlStartupPhase L c)).fadeSwap = c.fadeSwap := by
  simp

lemma fade_step_advance (e : Engine) (x : ℚ) (hfc : e.ctl.fading = true)
    (hlt : e.ctl.fadeCount < kFadeTime) :
    (engineStep e x).1.fade =
      (if e.ctl.fadeSwap then e.fade - kFadeStep else e.fade + kFadeStep) ∧
    (engineStep e x).1.ctl.fadeCount = e.ctl.fadeCount + 1 ∧
    (engineStep e x).1.ctl.fading = true ∧
    (engineStep e x).1.ctl.fadeSwap = e.ctl.fadeSwap := by
  have hfadeq := engineStepL_fade LEngine e x
  rw [show engineStepL LEngine e x = engineStep e x from rfl] at hfadeq
  have hctl : (engineStep e x).1.ctl = ctlStep LEngine e.ctl := rfl
  set c1 := ctlStartupPhase LEngine e.ctl with hc1
  set c2 := ctlSegsPhase c1 with hc2
  set c3 := ctlFadePhase c2 with hc3
  have hflags := c2flags_of e.ctl LEngine
  rw [← hc1, ← hc2] at hflags
  have hc3eq : c3 = { c2 with fadeCount := c2.fadeCount + 1 } := by
    rw [hc3]
    exact ctlFadePhase_of_lt (by rw [hflags.1]; exact hfc) (by rw [hflags.2.1]; exact hlt)
  have hc3f : c3.fading = true := by rw [hc3eq]; simpa [hflags.1] using hfc
  have ht : ¬ trigCond c3 := fun hcon => by rw [hcon.1] at hc3f; cases hc3f
  have hcond : c2.fading = true ∧ c2.fadeCount < kFadeTime := by
    rw [hflags.1, hflags.2.1]; exact ⟨hfc, hlt⟩
  have hpost : (engineStep e x).1.ctl =
      ctlAdvancePhase (ctlRetirePhase (ctlTrigPhase LEngine c3)) := by rw [hctl]; rfl
  refine ⟨?_, ?_, ?_, ?_⟩
  · rw [hfadeq, if_neg ht, if_pos hcond, hflags.2.2]
  · rw [hpost, ctlAdvancePhase_fadeCount, ctlRetirePhase_fadeCount,
      ctlTrigPhase_fadeCount, hc3eq]
    simp [hflags.2.1]
  · rw [hpost, ctlAdvancePhase_fading, ctlRetirePhase_fading, ctlTrigPhase_fading,
      if_neg ht, hc3f]
  · rw [hpost, ctlAdvancePhase_fadeSwap, ctlRetirePhase_fadeSwap, ctlTrigPhase_fadeSwap,
      hc3eq]
    simp [hflags.2.2]

lemma fade_step_end (e : Engine) (x : ℚ) (hfc : e.ctl.fading = true)
    (hnlt : ¬ e.ctl.fadeCount < kFadeTime) :
    (ctlFadePhase (ctlSegsPhase (ctlStartupPhase LEngine e.ctl))).fading = false ∧
    (engineStep e x).1.ctl.fadeSwap = !e.ctl.fadeSwap := by
  have hctl : (engineStep e x).1.ctl = ctlStep LEngine e.ctl := rfl
  set c1 := ctlStartupPhase LEngine e.ctl with hc1
  set c2 := ctlSegsPhase c1 with hc2
  set c3 := ctlFadePhase c2 with hc3
  have hflags := c2flags_of e.ctl LEngine
  rw [← hc1, ← hc2] at hflags
  have hc3eq : c3 = { c2 with fading := false, fadeCount := 0, fadeSwap := !c2.fadeSwap } := by
    rw [hc3]
    exact ctlFadePhase_of_end (by rw [hflags.1]; exact hfc) (by rw [hflags.2.1]; exact hnlt)
  have hpost : (engineStep e x).1.ctl =
      ctlAdvancePhase (ctlRetirePhase (ctlTrigPhase LEngine c3)) := by rw [hctl]; rfl
  constructor
  · rw [hc3eq]
  · rw [hpost, ctlAdvancePhase_fadeSwap, ctlRetirePhase_fadeSwap, ctlTrigPhase_fadeSwap,
      hc3eq]
    simp [hflags.2.2]

lemma fade_begins_only_idle (e : Engine) (x : ℚ)
    (h2 : (engineStep e x).1.ctl.fadeCount = 0) :
    (ctlFadePhase (ctlSegsPhase (ctlStartupPhase LEngine e.ctl))).fading = false := by
  have hctl : (engineStep e x).1.ctl = ctlStep LEngine e.ctl := rfl
  set c1 := ctlStartupPhase LEngine e.ctl with hc1
  set c2 := ctlSegsPhase c1 with hc2
  set c3 := ctlFadePhase c2 with hc3
  have hflags := c2flags_of e.ctl LEngine
  rw [← hc1, ← hc2] at hflags
  have hcount : (engineStep e x).1.ctl.fadeCount = c3.fadeCount := by
    rw [hctl]
    show (ctlAdvancePhase (ctlRetirePhase (ctlTrigPhase LEngine c3))).fadeCount = _
    simp
  rw [hcount] at h2
  by_cases h2f : c2.fading = true
  · by_cases h2c : c2.fadeCount < kFadeTime
    · rw [hc3, ctlFadePhase_of_lt h2f h2c] at h2
      simp at h2
    · rw [hc3, ctlFadePhase_of_end h2f h2c]
  · rw [hc3, ctlFadePhase_of_false (by simpa using h2f)]
    simpa using h2f

/-- The segment the trigger inspects: the most recently started one. -/
def leadSeg (c : Ctl) : Seg := if c.aLag then c.segB else c.segA

lemma trigCond_false_elim {c : Ctl} (hnt : ¬ trigCond c) (hf : c.fading = false) :
    (c.aLag = true → ¬ c.segB.len ≤ c.segB.played + kFadeTime) ∧
    (c.aLag = false → ¬ c.segA.len ≤ c.segA.played + kFadeTime) := by
  constructor
  · intro ha h2
    exact hnt ⟨hf, Or.inl ⟨ha, h2⟩⟩
  · intro ha h2
    exact hnt ⟨hf, Or.inr ⟨ha, h2⟩⟩

lemma ctlStep_decomp (L : ℕ) {c : Ctl} (hs : c.startup = false) :
    ctlStep L c =
      ctlAdvancePhase (ctlRetirePhase (ctlTrigPhase L (ctlFadePhase (ctlSegsPhase c)))) := by
  unfold ctlStep
  rw [ctlStartupPhase_of_false L hs]

/-- The scheduler liveness invariant: past startup the most recently
started segment is active with the configured length, and its progress is
tied to the crossfade counter so that the trigger restarts the pair
before it can die. -/
def schedInv (L : ℕ) (c : Ctl) : Prop :=
  c.startup = false ∧
  (leadSeg c).active = true ∧ (leadSeg c).len = L ∧ (leadSeg c).played < L ∧
  (c.fading = true → c.fadeCount ≤ kFadeTime ∧ (leadSeg c).played = c.fadeCount) ∧
  (c.fading = false → c.fadeCount = 0 ∧ (leadSeg c).played + kFadeTime < L)

lemma retireAdvance_facts (d : Ctl) :
    (ctlAdvancePhase (ctlRetirePhase d)).aLag = d.aLag ∧
    (ctlAdvancePhase (ctlRetirePhase d)).fading = d.fading ∧
    (ctlAdvancePhase (ctlRetirePhase d)).fadeCount = d.fadeCount ∧
    (ctlAdvancePhase (ctlRetirePhase d)).startup = d.startup ∧
    (ctlAdvancePhase (ctlRetirePhase d)).segA =
      (if d.segA.len ≤ d.segA.played then deactivatedSeg else d.segA) ∧
    (ctlAdvancePhase (ctlRetirePhase d)).segB =
      (if d.segB.len ≤ d.segB.played then deactivatedSeg else d.segB) := by
  refine ⟨by simp, by simp, by simp, by simp, ?_, ?_⟩
  · rw [ctlAdvancePhase_segA, ctlRetirePhase_segA]
  · rw [ctlAdvancePhase_segB, ctlRetirePhase_segB]


lemma ctlRetirePhase_eq (c : Ctl) : ctlRetirePhase c =
    { c with segA := if c.segA.len ≤ c.segA.played then deactivatedSeg else c.segA,
             segB := if c.segB.len ≤ c.segB.played then deactivatedSeg else c.segB } := by
  simp only [ctlRetirePhase]
  split_ifs with h1 h2 h3 <;> simp_all

lemma schedInv_step {L : ℕ} (hL : kFadeTime < L) {c : Ctl} (h : schedInv L c) :
    schedInv L (ctlStep L c) := by
  obtain ⟨hs, hAct, hLen, hP, hFad, hNf⟩ := h
  have hkF : kFadeTime = 9600 := rfl
  rw [ctlStep_decomp L hs]
  set c2 := ctlSegsPhase c with hc2
  have hfg : c2.fading = c.fading := by rw [hc2]; simp
  have hcn : c2.fadeCount = c.fadeCount := by rw [hc2]; simp
  have hal : c2.aLag = c.aLag := by rw [hc2]; simp
  have hsu : c2.startup = c.startup := by rw [hc2]; simp
  cases haL : c.aLag
  case false =>
    have hlead : leadSeg c = c.segA := by unfold leadSeg; rw [haL]; simp
    rw [hlead] at hAct hLen hP hFad hNf
    have hA2 : c2.segA = stepSeg c.segA := by
      rw [hc2, ctlSegsPhase_segA, if_pos hAct]
    have hA2len : c2.segA.len = L := by rw [hA2]; unfold stepSeg; simpa using hLen
    have hA2pl : c2.segA.played = c.segA.played + 1 := by rw [hA2]; rfl
    have hA2act : c2.segA.active = true := by rw [hA2]; unfold stepSeg; simpa using hAct
    cases hfc : c.fading
    · -- not fading: the fade phase is the identity and the trigger may fire
      obtain ⟨hcnt, hgap⟩ := hNf hfc
      rw [ctlFadePhase_of_false (by rw [hfg]; exact hfc)]
      by_cases ht : trigCond c2
      · rw [ctlTrigPhase_of_fire_false L (by rw [hal]; exact haL) ht, ctlRetirePhase_eq]
        unfold ctlAdvancePhase schedInv leadSeg
        dsimp only
        simp only [hal, haL, Bool.not_false, if_true]
        rw [if_neg (show ¬ L ≤ 0 from by omega)]
        try dsimp only
        repeat' apply And.intro
        all_goals first
          | rfl
          | (rw [hsu]; exact hs)
          | exact hA2act
          | exact hA2len
          | omega
          | (intro h5; first
              | (refine ⟨?_, ?_⟩ <;> first | trivial | omega)
              | cases h5)
      · rw [ctlTrigPhase_of_not L ht, ctlRetirePhase_eq]
        have hnA : ¬ c2.segA.len ≤ c2.segA.played + kFadeTime :=
          (trigCond_false_elim ht (by rw [hfg]; exact hfc)).2 (by rw [hal]; exact haL)
        unfold ctlAdvancePhase schedInv leadSeg
        dsimp only
        simp only [hal, haL, hfg, hfc, Bool.false_eq_true, if_false]
        rw [if_neg (show ¬ c2.segA.len ≤ c2.segA.played from by omega)]
        try dsimp only
        repeat' apply And.intro
        all_goals first
          | rfl
          | (rw [hsu]; exact hs)
          | exact hA2act
          | exact hA2len
          | omega
          | (intro h5; first
              | (refine ⟨?_, ?_⟩ <;> first | trivial | omega)
              | cases h5)
    · -- fading: the counter advances, or the fade ends and the trigger may fire
      obtain ⟨hcle, hpc⟩ := hFad hfc
      by_cases hlt : c.fadeCount < kFadeTime
      · rw [ctlFadePhase_of_lt (by rw [hfg]; exact hfc) (by rw [hcn]; exact hlt)]
        have ht : ¬ trigCond { c2 with fadeCount := c2.fadeCount + 1 } := by
          intro hcon
          have hx : c.fading = false := by rw [← hfg]; exact hcon.1
          rw [hfc] at hx
          cases hx
        rw [ctlTrigPhase_of_not L ht, ctlRetirePhase_eq]
        unfold ctlAdvancePhase schedInv leadSeg
        dsimp only
        simp only [hal, haL, hfg, hfc, Bool.false_eq_true, if_false]
        rw [if_neg (show ¬ c2.segA.len ≤ c2.segA.played from by omega)]
        try dsimp only
        repeat' apply And.intro
        all_goals first
          | rfl
          | (rw [hsu]; exact hs)
          | exact hA2act
          | exact hA2len
          | omega
          | (intro h5; first
              | (refine ⟨?_, ?_⟩ <;> first | trivial | omega)
              | cases h5)
      · rw [ctlFadePhase_of_end (by rw [hfg]; exact hfc) (by rw [hcn]; exact hlt)]
        by_cases ht :
          trigCond { c2 with fading := false, fadeCount := 0, fadeSwap := !c2.fadeSwap }
        · rw [ctlTrigPhase_of_fire_false L (show Ctl.aLag _ = false from by
            dsimp only; rw [hal]; exact haL) ht, ctlRetirePhase_eq]
          unfold ctlAdvancePhase schedInv leadSeg
          dsimp only
          simp only [hal, haL, Bool.not_false, if_true]
          rw [if_neg (show ¬ L ≤ 0 from by omega)]
          try dsimp only
          repeat' apply And.intro
          all_goals first
            | rfl
            | (rw [hsu]; exact hs)
            | exact hA2act
            | exact hA2len
            | omega
            | (intro h5; first
                | (refine ⟨?_, ?_⟩ <;> first | trivial | omega)
                | cases h5)
        · rw [ctlTrigPhase_of_not L ht, ctlRetirePhase_eq]
          have hnA : ¬ c2.segA.len ≤ c2.segA.played + kFadeTime :=
            (trigCond_false_elim ht rfl).2 (by dsimp only; rw [hal]; exact haL)
          unfold ctlAdvancePhase schedInv leadSeg
          dsimp only
          simp only [hal, haL, Bool.false_eq_true, if_false]
          rw [if_neg (show ¬ c2.segA.len ≤ c2.segA.played from by omega)]
          try dsimp only
          repeat' apply And.intro
          all_goals first
            | rfl
            | (rw [hsu]; exact hs)
            | exact hA2act
            | exact hA2len
            | omega
            | (intro h5; first
                | (refine ⟨?_, ?_⟩ <;> first | trivial | omega)
                | cases h5)
  case true =>
    have hlead : leadSeg c = c.segB := by unfold leadSeg; rw [haL]; simp
    rw [hlead] at hAct hLen hP hFad hNf
    have hB2 : c2.segB = stepSeg c.segB := by
      rw [hc2, ctlSegsPhase_segB, if_pos hAct]
    have hB2len : c2.segB.len = L := by rw [hB2]; unfold stepSeg; simpa using hLen
    have hB2pl : c2.segB.played = c.segB.played + 1 := by rw [hB2]; rfl
    have hB2act : c2.segB.active = true := by rw [hB2]; unfold stepSeg; simpa using hAct
    cases hfc : c.fading
    · obtain ⟨hcnt, hgap⟩ := hNf hfc
      rw [ctlFadePhase_of_false (by rw [hfg]; exact hfc)]
      by_cases ht : trigCond c2
      · rw [ctlTrigPhase_of_fire_true L (by rw [hal]; exact haL) ht, ctlRetirePhase_eq]
        unfold ctlAdvancePhase schedInv leadSeg
        dsimp only
        simp only [hal, haL, Bool.not_true, Bool.false_eq_true, if_false]
        rw [if_neg (show ¬ L ≤ 0 from by omega)]
        try dsimp only
        repeat' apply And.intro
        all_goals first
          | rfl
          | (rw [hsu]; exact hs)
          | exact hB2act
          | exact hB2len
          | omega
          | (intro h5; first
              | (refine ⟨?_, ?_⟩ <;> first | trivial | omega)
              | cases h5)
      · rw [ctlTrigPhase_of_not L ht, ctlRetirePhase_eq]
        have hnB : ¬ c2.segB.len ≤ c2.segB.played + kFadeTime :=
          (trigCond_false_elim ht (by rw [hfg]; exact hfc)).1 (by rw [hal]; exact haL)
        unfold ctlAdvancePhase schedInv leadSeg
        dsimp only
        simp only [hal, haL, hfg, hfc, if_true]
        rw [if_neg (show ¬ c2.segB.len ≤ c2.segB.played from by omega)]
        try dsimp only
        repeat' apply And.intro
        all_goals first
          | rfl
          | (rw [hsu]; exact hs)
          | exact hB2act
          | exact hB2len
          | omega
          | (intro h5; first
              | (refine ⟨?_, ?_⟩ <;> first | trivial | omega)
              | cases h5)
    · obtain ⟨hcle, hpc⟩ := hFad hfc
      by_cases hlt : c.fadeCount < kFadeTime
      · rw [ctlFadePhase_of_lt (by rw [hfg]; exact hfc) (by rw [hcn]; exact hlt)]
        have ht : ¬ trigCond { c2 with fadeCount := c2.fadeCount + 1 } := by
          intro hcon
          have hx : c.fading = false := by rw [← hfg]; exact hcon.1
          rw [hfc] at hx
          cases hx
        rw [ctlTrigPhase_of_not L ht, ctlRetirePhase_eq]
        unfold ctlAdvancePhase schedInv leadSeg
        dsimp only
        simp only [hal, haL, hfg, hfc, if_true]
        rw [if_neg (show ¬ c2.segB.len ≤ c2.segB.played from by omega)]
        try dsimp only
        repeat' apply And.intro
        all_goals first
          | rfl
          | (rw [hsu]; exact hs)
          | exact hB2act
          | exact hB2len
          | omega
          | (intro h5; first
              | (refine ⟨?_, ?_⟩ <;> first | trivial | omega)
              | cases h5)
      · rw [ctlFadePhase_of_end (by rw [hfg]; exact hfc) (by rw [hcn]; exact hlt)]
        by_cases ht :
          trigCond { c2 with fading := false, fadeCount := 0, fadeSwap := !c2.fadeSwap }
        · rw [ctlTrigPhase_of_fire_true L (show Ctl.aLag _ = true from by
            dsimp only; rw [hal]; exact haL) ht, ctlRetirePhase_eq]
          unfold ctlAdvancePhase schedInv leadSeg
          dsimp only
          simp only [hal, haL, Bool.not_true, Bool.false_eq_true, if_false]
          rw [if_neg (show ¬ L ≤ 0 from by omega)]
          try dsimp only
          repeat' apply And.intro
          all_goals first
            | rfl
            | (rw [hsu]; exact hs)
            | exact hB2act
            | exact hB2len
            | omega
            | (intro h5; first
                | (refine ⟨?_, ?_⟩ <;> first | trivial | omega)
                | cases h5)
        · rw [ctlTrigPhase_of_not L ht, ctlRetirePhase_eq]
          have hnB : ¬ c2.segB.len ≤ c2.segB.played + kFadeTime :=
            (trigCond_false_elim ht rfl).1 (by dsimp only; rw [hal]; exact haL)
          unfold ctlAdvancePhase schedInv leadSeg
          dsimp only
          simp only [hal, haL, if_true]
          rw [if_neg (show ¬ c2.segB.len ≤ c2.segB.played from by omega)]
          try dsimp only
          repeat' apply And.intro
          all_goals first
            | rfl
            | (rw [hsu]; exact hs)
            | exact hB2act
            | exact hB2len
            | omega
            | (intro h5; first
                | (refine ⟨?_, ?_⟩ <;> first | trivial | omega)
                | cases h5)

lemma schedInv_one {L : ℕ} (hL : kFadeTime < L) : schedInv L (ctlIter L 1) := by
  have hkF : kFadeTime = 9600 := rfl
  have hstep : ctlIter L 1 = ctlStep L ctlInit := rfl
  rw [hstep]
  unfold ctlStep
  have h1 : ctlStartupPhase L ctlInit =
      ⟨0, ⟨0, 0, L, 0, true⟩, deactivatedSeg, false, 0, false, false, false⟩ := by
    simp [ctlStartupPhase, ctlInit, StartSegment]
  rw [h1]
  have h2 : ctlSegsPhase ⟨0, ⟨0, 0, L, 0, true⟩, deactivatedSeg, false, 0, false, false,
      false⟩ = ⟨0, ⟨kBufferSize - 1, 0, L, 1, true⟩, deactivatedSeg, false, 0, false, false,
      false⟩ := by
    simp [ctlSegsPhase, stepSeg, deactivatedSeg, wrapDec]
  rw [h2]
  have h3 : ctlFadePhase ⟨0, ⟨kBufferSize - 1, 0, L, 1, true⟩, deactivatedSeg, false, 0,
      false, false, false⟩ = ⟨0, ⟨kBufferSize - 1, 0, L, 1, true⟩, deactivatedSeg, false, 0,
      false, false, false⟩ := by
    simp [ctlFadePhase]
  rw [h3]
  by_cases hfire : L ≤ 1 + kFadeTime
  · have h4 : ctlTrigPhase L ⟨0, ⟨kBufferSize - 1, 0, L, 1, true⟩, deactivatedSeg, false, 0,
        false, false, false⟩ =
        ⟨0, ⟨kBufferSize - 1, 0, L, 1, true⟩, ⟨0, 0, L, 0, true⟩, true, 0, true, false,
        false⟩ := by
      simp [ctlTrigPhase, StartSegment, hfire]
    rw [h4, ctlRetirePhase_eq]
    unfold ctlAdvancePhase schedInv leadSeg
    dsimp only
    rw [if_neg (show ¬ L ≤ 1 from by omega), if_neg (show ¬ L ≤ 0 from by omega)]
    simp only [eq_self_iff_true, if_true]
    try dsimp only
    repeat' apply And.intro
    all_goals first
      | rfl
      | trivial
      | omega
      | (intro h5; first
          | (refine ⟨?_, ?_⟩ <;> first | trivial | omega)
          | cases h5)
  · have h4 : ctlTrigPhase L ⟨0, ⟨kBufferSize - 1, 0, L, 1, true⟩, deactivatedSeg, false, 0,
        false, false, false⟩ = ⟨0, ⟨kBufferSize - 1, 0, L, 1, true⟩, deactivatedSeg, false,
        0, false, false, false⟩ := by
      simp [ctlTrigPhase, StartSegment, hfire]
    rw [h4, ctlRetirePhase_eq]
    unfold ctlAdvancePhase schedInv leadSeg
    dsimp only
    rw [if_neg (show ¬ L ≤ 1 from by omega)]
    simp only [deactivatedSeg, le_refl, if_true, Bool.false_eq_true, if_false]
    try dsimp only
    repeat' apply And.intro
    all_goals first
      | rfl
      | trivial
      | omega
      | (intro h5; first
          | (refine ⟨?_, ?_⟩ <;> first | trivial | omega)
          | cases h5)

lemma schedInv_iter {L : ℕ} (hL : kFadeTime < L) (n : ℕ) (hn : 1 ≤ n) :
    schedInv L (ctlIter L n) := by
  induction n with
  | zero => omega
  | succ m ih =>
    rcases Nat.eq_zero_or_pos m with hm | hm
    · subst hm
      exact schedInv_one hL
    · exact schedInv_step hL (ih hm)

/-- C6: For every reachable state after Startup completes (the
configured delay length, 47760 samples, being strictly greater than the
crossfade window of 9600 samples), at least one of the two segments is
active — here with no one-sample exception at all — so the wet path is
never left with both segments simultaneously inactive. -/
theorem c6_no_silent_gap {e : Engine} (h : ReachE e) (hs : e.ctl.startup = false) :
    e.ctl.segA.active = true ∨ e.ctl.segB.active = true := by
  obtain ⟨n, hn⟩ := reach_ctl h
  have hL : kFadeTime < LEngine := by rw [lEngine_eq]; decide
  rcases Nat.eq_zero_or_pos n with h0 | h1
  · subst h0
    rw [hn] at hs
    exact absurd hs (by decide)
  · have hinv := schedInv_iter hL n h1
    rw [← hn] at hinv
    obtain ⟨-, hact, -⟩ := hinv
    unfold leadSeg at hact
    cases hA : e.ctl.aLag
    · simp only [hA, Bool.false_eq_true, if_false] at hact
      exact Or.inl hact
    · simp only [hA, if_true] at hact
      exact Or.inr hact

theorem c6_witness :
    ReachE (engineStep engineInit 0).1 ∧
    (engineStep engineInit 0).1.ctl.startup = false ∧
    ((engineStep engineInit 0).1.ctl.segA.active = true ∨
     (engineStep engineInit 0).1.ctl.segB.active = true) := by
  have h1 : ReachE (engineStep engineInit 0).1 := ReachE.audio ReachE.init 0
  have hctl : (engineStep engineInit 0).1.ctl = ctlStep 47760 ctlInit := by
    rw [engineStep_eq_47760]
    rfl
  have hs : (engineStep engineInit 0).1.ctl.startup = false := by
    rw [hctl]; decide
  exact ⟨h1, hs, c6_no_silent_gap h1 hs⟩

/- Kernel-checked checkpoints of the control trajectory at delay length
12000, the crossfade window being 9600: the scenario of the handoff
claim.  Each block advances the previous checkpoint by at most 80
samples. -/
set_option maxRecDepth 1000000 in
lemma c3chain1 : ctlIter 12000 80 = (⟨80, ⟨95920, 0, 12000, 80, true⟩, ⟨0, 0, 0, 0, false⟩, false, 0, false, false, false⟩ : Ctl) := by
  rw [show (80 : ℕ) = 0 + 80 from rfl, ctlIter_add]
  decide
set_option maxRecDepth 1000000 in
lemma c3chain2 : ctlIter 12000 160 = (⟨160, ⟨95840, 0, 12000, 160, true⟩, ⟨0, 0, 0, 0, false⟩, false, 0, false, false, false⟩ : Ctl) := by
  rw [show (160 : ℕ) = 80 + 80 from rfl, ctlIter_add, c3chain1]
  decide
set_option maxRecDepth 1000000 in
lemma c3chain3 : ctlIter 12000 240 = (⟨240, ⟨95760, 0, 12000, 240, true⟩, ⟨0, 0, 0, 0, false⟩, false, 0, false, false, false⟩ : Ctl) := by
  rw [show (240 : ℕ) = 160 + 80 from rfl, ctlIter_add, c3chain2]
  decide
set_option maxRecDepth 1000000 in
lemma c3chain4 : ctlIter 12000 320 = (⟨320, ⟨95680, 0, 12000, 320, true⟩, ⟨0, 0, 0, 0, false⟩, false, 0, false, false, false⟩ : Ctl) := by
  rw [show (320 : ℕ) = 240 + 80 from rfl, ctlIter_add, c3chain3]
  decide
set_option maxRecDepth 1000000 in
lemma c3chain5 : ctlIter 12000 400 = (⟨400, ⟨95600, 0, 12000, 400, true⟩, ⟨0, 0, 0, 0, false⟩, false, 0, false, false, false⟩ : Ctl) := by
  rw [show (400 : ℕ) = 320 + 80 from rfl, ctlIter_add, c3chain4]
  decide
set_option maxRecDepth 1000000 in
lemma c3chain6 : ctlIter 12000 480 = (⟨480, ⟨95520, 0, 12000, 480, true⟩, ⟨0, 0, 0, 0, false⟩, false, 0, false, false, false⟩ : Ctl) := by
  rw [show (480 : ℕ) = 400 + 80 from rfl, ctlIter_add, c3chain5]
  decide
set_option maxRecDepth 1000000 in
lemma c3chain7 : ctlIter 12000 560 = (⟨560, ⟨95440, 0, 12000, 560, true⟩, ⟨0, 0, 0, 0, false⟩, false, 0, false, false, false⟩ : Ctl) := by
  rw [show (560 : ℕ) = 480 + 80 from rfl, ctlIter_add, c3chain6]
  decide
set_option maxRecDepth 1000000 in
lemma c3chain8 : ctlIter 12000 640 = (⟨640, ⟨95360, 0, 12000, 640, true⟩, ⟨0, 0, 0, 0, false⟩, false, 0, false, false, false⟩ : Ctl) := by
  rw [show (640 : ℕ) = 560 + 80 from rfl, ctlIter_add, c3chain7]
  decide
set_option maxRecDepth 1000000 in
lemma c3chain9 : ctlIter 12000 720 = (⟨720, ⟨95280, 0, 12000, 720, true⟩, ⟨0, 0, 0, 0, false⟩, false, 0, false, false, false⟩ : Ctl) := by
  rw [show (720 : ℕ) = 640 + 80 from rfl, ctlIter_add, c3chain8]
  decide
set_option maxRecDepth 1000000 in
lemma c3chain10 : ctlIter 12000 800 = (⟨800, ⟨95200, 0, 12000, 800, true⟩, ⟨0, 0, 0, 0, false⟩, false, 0, false, false, false⟩ : Ctl) := by
  rw [show (800 : ℕ) = 720 + 80 from rfl, ctlIter_add, c3chain9]
  decide
set_option maxRecDepth 1000000 in
lemma c3chain11 : ctlIter 12000 880 = (⟨880, ⟨95120, 0, 12000, 880, true⟩, ⟨0, 0, 0, 0, false⟩, false, 0, false, false, false⟩ : Ctl) := by
  rw [show (880 : ℕ) = 800 + 80 from rfl, ctlIter_add, c3chain10]
  decide
set_option maxRecDepth 1000000 in
lemma c3chain12 : ctlIter 12000 960 = (⟨960, ⟨95040, 0, 12000, 960, true⟩, ⟨0, 0, 0, 0, false⟩, false, 0, false, false, false⟩ : Ctl) := by
  rw [show (960 : ℕ) = 880 + 80 from rfl, ctlIter_add, c3chain11]
  decide
set_option maxRecDepth 1000000 in
lemma c3chain13 : ctlIter 12000 1040 = (⟨1040, ⟨94960, 0, 12000, 1040, true⟩, ⟨0, 0, 0, 0, false⟩, false, 0, false, false, false⟩ : Ctl) := by
  rw [show (1040 : ℕ) = 960 + 80 from rfl, ctlIter_add, c3chain12]
  decide
set_option maxRecDepth 1000000 in
lemma c3chain14 : ctlIter 12000 1120 = (⟨1120, ⟨94880, 0, 12000, 1120, true⟩, ⟨0, 0, 0, 0, false⟩, false, 0, false, false, false⟩ : Ctl) := by
  rw [show (1120 : ℕ) = 1040 + 80 from rfl, ctlIter_add, c3chain13]
  decide
set_option maxRecDepth 1000000 in
lemma c3chain15 : ctlIter 12000 1200 = (⟨1200, ⟨94800, 0, 12000, 1200, true⟩, ⟨0, 0, 0, 0, false⟩, false, 0, false, false, false⟩ : Ctl) := by
  rw [show (1200 : ℕ) = 1120 + 80 from rfl, ctlIter_add, c3chain14]
  decide
set_option maxRecDepth 1000000 in
lemma c3chain16 : ctlIter 12000 1280 = (⟨1280, ⟨94720, 0, 12000, 1280, true⟩, ⟨0, 0, 0, 0, false⟩, false, 0, false, false, false⟩ : Ctl) := by
  rw [show (1280 : ℕ) = 1200 + 80 from rfl, ctlIter_add, c3chain15]
  decide
set_option maxRecDepth 1000000 in
lemma c3chain17 : ctlIter 12000 1360 = (⟨1360, ⟨94640, 0, 12000, 1360, true⟩, ⟨0, 0, 0, 0, false⟩, false, 0, false, false, false⟩ : Ctl) := by
  rw [show (1360 : ℕ) = 1280 + 80 from rfl, ctlIter_add, c3chain16]
  decide
set_option maxRecDepth 1000000 in
lemma c3chain18 : ctlIter 12000 1440 = (⟨1440, ⟨94560, 0, 12000, 1440, true⟩, ⟨0, 0, 0, 0, false⟩, false, 0, false, false, false⟩ : Ctl) := by
  rw [show (1440 : ℕ) = 1360 + 80 from rfl, ctlIter_add, c3chain17]
  decide
set_option maxRecDepth 1000000 in
lemma c3chain19 : ctlIter 12000 1520 = (⟨1520, ⟨94480, 0, 12000, 1520, true⟩, ⟨0, 0, 0, 0, false⟩, false, 0, false, false, false⟩ : Ctl) := by
  rw [show (1520 : ℕ) = 1440 + 80 from rfl, ctlIter_add, c3chain18]
  decide
set_option maxRecDepth 1000000 in
lemma c3chain20 : ctlIter 12000 1600 = (⟨1600, ⟨94400, 0, 12000, 1600, true⟩, ⟨0, 0, 0, 0, false⟩, false, 0, false, false, false⟩ : Ctl) := by
  rw [show (1600 : ℕ) = 1520 + 80 from rfl, ctlIter_add, c3chain19]
  decide
set_option maxRecDepth 1000000 in
lemma c3chain21 : ctlIter 12000 1680 = (⟨1680, ⟨94320, 0, 12000, 1680, true⟩, ⟨0, 0, 0, 0, false⟩, false, 0, false, false, false⟩ : Ctl) := by
  rw [show (1680 : ℕ) = 1600 + 80 from rfl, ctlIter_add, c3chain20]
  decide
set_option maxRecDepth 1000000 in
lemma c3chain22 : ctlIter 12000 1760 = (⟨1760, ⟨94240, 0, 12000, 1760, true⟩, ⟨0, 0, 0, 0, false⟩, false, 0, false, false, false⟩ : Ctl) := by
  rw [show (1760 : ℕ) = 1680 + 80 from rfl, ctlIter_add, c3chain21]
  decide
set_option maxRecDepth 1000000 in
lemma c3chain23 : ctlIter 12000 1840 = (⟨1840, ⟨94160, 0, 12000, 1840, true⟩, ⟨0, 0, 0, 0, false⟩, false, 0, false, false, false⟩ : Ctl) := by
  rw [show (1840 : ℕ) = 1760 + 80 from rfl, ctlIter_add, c3chain22]
  decide
set_option maxRecDepth 1000000 in
lemma c3chain24 : ctlIter 12000 1920 = (⟨1920, ⟨94080, 0, 12000, 1920, true⟩, ⟨0, 0, 0, 0, false⟩, false, 0, false, false, false⟩ : Ctl) := by
  rw [show (1920 : ℕ) = 1840 + 80 from rfl, ctlIter_add, c3chain23]
  decide
set_option maxRecDepth 1000000 in
lemma c3chain25 : ctlIter 12000 2000 = (⟨2000, ⟨94000, 0, 12000, 2000, true⟩, ⟨0, 0, 0, 0, false⟩, false, 0, false, false, false⟩ : Ctl) := by
  rw [show (2000 : ℕ) = 1920 + 80 from rfl, ctlIter_add, c3chain24]
  decide
set_option maxRecDepth 1000000 in
lemma c3chain26 : ctlIter 12000 2080 = (⟨2080, ⟨93920, 0, 12000, 2080, true⟩, ⟨0, 0, 0, 0, false⟩, false, 0, false, false, false⟩ : Ctl) := by
  rw [show (2080 : ℕ) = 2000 + 80 from rfl, ctlIter_add, c3chain25]
  decide
set_option maxRecDepth 1000000 in
lemma c3chain27 : ctlIter 12000 2160 = (⟨2160, ⟨93840, 0, 12000, 2160, true⟩, ⟨0, 0, 0, 0, false⟩, false, 0, false, false, false⟩ : Ctl) := by
  rw [show (2160 : ℕ) = 2080 + 80 from rfl, ctlIter_add, c3chain26]
  decide
set_option maxRecDepth 1000000 in
lemma c3chain28 : ctlIter 12000 2240 = (⟨2240, ⟨93760, 0, 12000, 2240, true⟩, ⟨0, 0, 0, 0, false⟩, false, 0, false, false, false⟩ : Ctl) := by
  rw [show (2240 : ℕ) = 2160 + 80 from rfl, ctlIter_add, c3chain27]
  decide
set_option maxRecDepth 1000000 in
lemma c3chain29 : ctlIter 12000 2320 = (⟨2320, ⟨93680, 0, 12000, 2320, true⟩, ⟨0, 0, 0, 0, false⟩, false, 0, false, false, false⟩ : Ctl) := by
  rw [show (2320 : ℕ) = 2240 + 80 from rfl, ctlIter_add, c3chain28]
  decide
set_option maxRecDepth 1000000 in
lemma c3chain30 : ctlIter 12000 2399 = (⟨2399, ⟨93601, 0, 12000, 2399, true⟩, ⟨0, 0, 0, 0, false⟩, false, 0, false, false, false⟩ : Ctl) := by
  rw [show (2399 : ℕ) = 2320 + 79 from rfl, ctlIter_add, c3chain29]
  decide
set_option maxRecDepth 1000000 in
lemma c3chain31 : ctlIter 12000 2400 = (⟨2400, ⟨93600, 0, 12000, 2400, true⟩, ⟨2399, 2399, 12000, 0, true⟩, true, 0, true, false, false⟩ : Ctl) := by
  rw [show (2400 : ℕ) = 2399 + 1 from rfl, ctlIter_add, c3chain30]
  decide

/-- Claim C3 counterexample: in the claim's own scenario (delay length
12000 samples, crossfade window 9600 samples, Startup at global sample
0) the first handoff does not happen at global sample 2400: the handoff
segment B is already active, and the lead/lag flag already toggled to
true, in the state reached after sample 2399 has been processed.  The
trigger fired during sample 2399 because segment A, started and already
stepped once during sample 0, reaches playedCount 2400 during sample
2399. -/
theorem c3_cex :
    (ctlIter 12000 2399).segB.active = false ∧
    (ctlIter 12000 2400).segB.active = true ∧
    (ctlIter 12000 2399).aLag = false ∧ (ctlIter 12000 2400).aLag = true := by
  rw [c3chain30, c3chain31]
  exact ⟨rfl, rfl, rfl, rfl⟩

/-- Claim C3 (amended): after Startup, the sample's lead/lag flag toggles
(equivalently, a new segment is started) if and only if the trigger
guard holds on the state the trigger block sees: no crossfade in
progress after this sample's fade-counter update, and the MOST recently
started segment — the one selected by the lead/lag flag, with no
activity check — has playedCount + fadeWindowLength ≥ length after this
sample's stepping.  A firing trigger sets the crossfade active with the
position at the endpoint the ramp leaves from.  In the claimed scenario
(delay 12000, window 9600, Startup at sample 0) the first handoff
therefore fires during global sample 2399, not 2400, and the lead/lag
flag has already toggled twice (Startup and this handoff) in the state
after sample 2399. -/
theorem c3_amended :
    (∀ (L : ℕ) (c : Ctl), c.startup = false →
      (ctlStep L c).aLag =
        (if trigCond (ctlFadePhase (ctlSegsPhase c)) then !c.aLag else c.aLag)) ∧
    (∀ (L : ℕ) (e : Engine) (x : ℚ), e.ctl.startup = false →
      trigCond (ctlFadePhase (ctlSegsPhase e.ctl)) →
      (engineStepL L e x).1.ctl.fading = true ∧
      (engineStepL L e x).1.fade =
        (if (ctlFadePhase (ctlSegsPhase e.ctl)).aLag then 1 else 0)) ∧
    ((ctlIter 12000 2399).segB.active = false ∧ (ctlIter 12000 2399).aLag = false ∧
     (ctlIter 12000 2400).segB.active = true ∧ (ctlIter 12000 2400).aLag = true) := by
  refine ⟨?_, ?_, ?_⟩
  · intro L c hs
    rw [ctlStep_aLag]
    unfold startCount
    rw [ctlStartupPhase_of_false L hs, hs]
    by_cases ht : trigCond (ctlFadePhase (ctlSegsPhase c)) <;> simp [ht]
  · intro L e x hs ht
    constructor
    · rw [engineStepL_ctl, ctlStep_decomp L hs, ctlAdvancePhase_fading,
        ctlRetirePhase_fading]
      set m := ctlFadePhase (ctlSegsPhase e.ctl) with hm
      cases hA : m.aLag
      · rw [ctlTrigPhase_of_fire_false L hA ht]
      · rw [ctlTrigPhase_of_fire_true L hA ht]
    · rw [engineStepL_fade, ctlStartupPhase_of_false L hs, if_pos ht]
  · rw [c3chain30, c3chain31]
    exact ⟨rfl, rfl, rfl, rfl⟩

/-- A concrete post-startup control state exercising the amended handoff
rule: segment A is one sample into a five-sample segment, so the trigger
guard holds and the flag toggles. -/
def egC : Ctl := ⟨0, ⟨0, 0, 5, 1, true⟩, deactivatedSeg, false, 0, false, false, false⟩

theorem c3_witness :
    egC.startup = false ∧
    (ctlStep 5 egC).aLag =
      (if trigCond (ctlFadePhase (ctlSegsPhase egC)) then !egC.aLag else egC.aLag) :=
  ⟨rfl, c3_amended.1 5 egC rfl⟩

lemma ctlStep_writePos (L : ℕ) (c : Ctl) :
    (ctlStep L c).writePos = (c.writePos + 1) % kBufferSize := by
  unfold ctlStep
  rw [ctlAdvancePhase_writePos, ctlRetirePhase_writePos, ctlTrigPhase_writePos,
    ctlFadePhase_writePos, ctlSegsPhase_writePos, ctlStartupPhase_writePos]

lemma zrun_succ (e : Engine) (k : ℕ) : zrun e (k + 1) = (engineStep (zrun e k) 0).1 := rfl

lemma zrun_writePos {e : Engine} (hw : e.ctl.writePos < kBufferSize) (k : ℕ) :
    (zrun e k).ctl.writePos = (e.ctl.writePos + k) % kBufferSize := by
  have hB : kBufferSize = 96000 := rfl
  induction k with
  | zero =>
    show e.ctl.writePos = (e.ctl.writePos + 0) % kBufferSize
    rw [hB] at hw ⊢
    omega
  | succ k ih =>
    have h1 : (zrun e (k + 1)).ctl = ctlStep LEngine (zrun e k).ctl := by
      rw [zrun_succ, engineStep_ctl]
    rw [h1, ctlStep_writePos, ih, hB]
    rw [hB] at hw
    omega

lemma zrun_buffer_succ (e : Engine) (k i : ℕ) :
    (zrun e (k + 1)).buffer i =
      if i = (zrun e k).ctl.writePos then 0 else (zrun e k).buffer i := rfl

lemma zrun_buffer_stable {e : Engine} {i m : ℕ} (h : (zrun e m).buffer i = 0) :
    ∀ n, m ≤ n → (zrun e n).buffer i = 0 := by
  intro n
  induction n with
  | zero =>
    intro hn
    exact (Nat.le_zero.mp hn) ▸ h
  | succ k ih =>
    intro hn
    rcases Nat.lt_or_ge m (k + 1) with hlt | hge
    · have hk : m ≤ k := by omega
      rw [zrun_buffer_succ, ih hk]
      split_ifs <;> rfl
    · have hmk : m = k + 1 := by omega
      exact hmk ▸ h

lemma zrun_buffer_all_zero {e : Engine} (hw : e.ctl.writePos < kBufferSize)
    {i : ℕ} (hi : i < kBufferSize) {n : ℕ} (hn : kBufferSize ≤ n) :
    (zrun e n).buffer i = 0 := by
  have hB : kBufferSize = 96000 := rfl
  set k := (i + kBufferSize - e.ctl.writePos) % kBufferSize with hk
  have hk2 : k = (i + 96000 - e.ctl.writePos) % 96000 := by rw [hk, hB]
  have hzero : (zrun e (k + 1)).buffer i = 0 := by
    rw [zrun_buffer_succ, zrun_writePos hw]
    have heq : i = (e.ctl.writePos + k) % kBufferSize := by
      rw [hB]
      rw [hB] at hw hi
      omega
    rw [if_pos heq]
  exact zrun_buffer_stable hzero n (by omega)

lemma startupPhase_heads (L : ℕ) {c : Ctl} (hwf : wfC c) :
    (ctlStartupPhase L c).segA.head < kBufferSize ∧
    (ctlStartupPhase L c).segB.head < kBufferSize := by
  unfold ctlStartupPhase
  split_ifs with hs
  · exact ⟨hwf.1, (by decide : (0 : ℕ) < kBufferSize)⟩
  · exact ⟨hwf.2.1, hwf.2.2⟩

lemma engineStepL_out (L : ℕ) (e : Engine) (x : ℚ) :
    (engineStepL L e x).2 =
      x + (1 / 2) * xfadeProcess
        (if (ctlSegsPhase (ctlStartupPhase L e.ctl)).fading then e.fade else e.xpos)
        (if (ctlStartupPhase L e.ctl).segA.active then
          e.buffer (ctlStartupPhase L e.ctl).segA.head else 0)
        (if (ctlStartupPhase L e.ctl).segB.active then
          e.buffer (ctlStartupPhase L e.ctl).segB.head else 0) := rfl

/-- C10: for every reachable engine state, after feeding more than
2 × maxDelaySamples consecutive zero input samples — enough for the
write cursor to lap the whole ring once — every further output sample on
zero input is exactly zero: the buffer has been flushed and both segment
reads, the crossfade mix and the dry path all yield zero. -/
theorem c10_zero_input_flush {e : Engine} (h : ReachE e) {n : ℕ}
    (hn : 2 * kMaxDelaySamps ≤ n) : zOut e n = 0 := by
  have hreach : ReachE (zrun e n) := by
    clear hn
    induction n with
    | zero => exact h
    | succ k ih => exact ReachE.audio ih 0
  obtain ⟨m, hm⟩ := reach_ctl hreach
  have hwf : wfC (zrun e n).ctl := by rw [hm]; exact wfC_iter LEngine m
  obtain ⟨m0, hm0⟩ := reach_ctl h
  have hwf0 : wfC e.ctl := by rw [hm0]; exact wfC_iter LEngine m0
  have hw0 : e.ctl.writePos < kBufferSize := hwf0.1
  have hB : kBufferSize = 96000 := rfl
  have hKM : kMaxDelaySamps = 95520 := rfl
  have hnB : kBufferSize ≤ n := by omega
  have hheads := startupPhase_heads LEngine hwf
  unfold zOut
  rw [show engineStep (zrun e n) 0 = engineStepL LEngine (zrun e n) 0 from rfl,
    engineStepL_out]
  have hyA : (if (ctlStartupPhase LEngine (zrun e n).ctl).segA.active then
      (zrun e n).buffer (ctlStartupPhase LEngine (zrun e n).ctl).segA.head else 0) = 0 := by
    split_ifs with ha
    · exact zrun_buffer_all_zero hw0 hheads.1 hnB
    · rfl
  have hyB : (if (ctlStartupPhase LEngine (zrun e n).ctl).segB.active then
      (zrun e n).buffer (ctlStartupPhase LEngine (zrun e n).ctl).segB.head else 0) = 0 := by
    split_ifs with hb
    · exact zrun_buffer_all_zero hw0 hheads.2 hnB
    · rfl
  rw [hyA, hyB]
  unfold xfadeProcess
  ring

theorem c10_witness :
    ReachE engineInit ∧ 2 * kMaxDelaySamps ≤ 191040 ∧ zOut engineInit 191040 = 0 :=
  ⟨ReachE.init, by decide, c10_zero_input_flush ReachE.init (by decide)⟩
